import Mathlib

/-!
# Verification of the DrawingBench action-log evaluator

Shallow embedding of `src/evaluator.py` (class `DrawingEvaluator`) and proofs
about it.  Conventions used throughout:

* Python numbers occurring in action dictionaries are modelled exactly as
  rationals (`ℚ`); a Python value that is not a number (a string, `None`, a
  list, ...) is modelled by the constructor `PyVal.other`.  Arithmetic or
  comparison on such a value raises `TypeError` in Python; the embedding makes
  every function that can raise return `Except PyExn`.
* A list element that is not a dictionary (so `element.get(...)` raises
  `AttributeError`) is modelled by `Entry.nonDict`.
* Python `dict`s whose key set is dynamic (the `metrics` map, the
  `action_breakdown` map) are modelled as association lists in insertion
  order, matching Python's insertion-ordered dictionaries.
* `round(x, n)` (banker's rounding) is modelled exactly on `ℚ` by
  `pyRound`; `int(x)` (truncation toward zero) by `pyInt`.
* The circle branch of `_fill_shape_in_grid` samples points using
  floating-point `sqrt`/`cos`/`sin`; those transcendental float computations
  have no exact rational embedding, so the set of grid cells the circle
  branch marks is a parameter `cc` of the development, and likewise the
  float square root used by `_evaluate_spatial_accuracy` is a parameter
  `rs`.  Every theorem below holds for every choice of these parameters;
  none of the verified claims exercises the circle branch.
* Diagnostic records keep their `type` and `index` fields; the generated
  human-readable `message`/`action_detail` strings are elided (no claim
  depends on message text, and error counts are preserved).
-/

namespace DrawingBench

/- Batteries marks the rational arithmetic operations `@[irreducible]`,
which blocks `decide`/`rfl` evaluation of the embedding at concrete inputs;
restore semireducibility locally so concrete runs reduce. -/
attribute [local semireducible] Rat.add Rat.sub Rat.mul Rat.inv Rat.ofScientific

/-- A Python value sitting in an action dictionary slot: a number, or any
non-numeric value (string, `None`, ...), on which arithmetic raises. -/
inductive PyVal
  | num (q : ℚ)
  | other
  deriving DecidableEq, Repr

/-- The Python exceptions the evaluator can raise on malformed input. -/
inductive PyExn
  | attrError
  | typeError
  deriving DecidableEq, Repr

/-- Computations that may raise a Python exception. -/
abbrev Py (α : Type) := Except PyExn α

instance {ε α : Type} [DecidableEq ε] [DecidableEq α] : DecidableEq (Except ε α) := fun
  | .ok a, .ok b =>
    decidable_of_iff (a = b) ⟨fun h => by rw [h], fun h => Except.ok.inj h⟩
  | .ok _, .error _ => .isFalse (fun h => Except.noConfusion h)
  | .error _, .ok _ => .isFalse (fun h => Except.noConfusion h)
  | .error e, .error f =>
    decidable_of_iff (e = f) ⟨fun h => by rw [h], fun h => Except.error.inj h⟩

/-- Arithmetic/comparison use of a raw Python value: numbers convert, anything
else raises `TypeError`. -/
def PyVal.toQ : PyVal → Py ℚ
  | .num q => .ok q
  | .other => .error .typeError

/-- `float(v)` wrapped in `try/except` (as in `_check_coordinate_errors`):
yields `none` when conversion fails. -/
def PyVal.toQ? : PyVal → Option ℚ
  | .num q => some q
  | .other => none

/-- One action dictionary: the values of the keys `"action"`, `"x"`, `"y"`
(`none` = key absent).  The evaluator reads no other keys.  The `"action"`
value is modelled as a string (non-string action values are outside the
model). -/
structure ActionDict where
  act : Option String
  x : Option PyVal
  y : Option PyVal
  deriving DecidableEq, Repr

/-- One element of the actions list: a dictionary, or any non-dict value
(`.get` raises `AttributeError`, `in` raises `TypeError` on it). -/
inductive Entry
  | dict (a : ActionDict)
  | nonDict
  deriving DecidableEq, Repr

/-- The top-level argument of `evaluate`: a Python list, or any non-list
value. -/
inductive EvalInput
  | list (l : List Entry)
  | nonList (v : PyVal)
  deriving DecidableEq, Repr

/-- `entry.get("action")` and friends: raises `AttributeError` on a
non-dict. -/
def Entry.asDict : Entry → Py ActionDict
  | .dict a => .ok a
  | .nonDict => .error .attrError

/-- `"k" in entry` membership tests: raise `TypeError` on a non-dict. -/
def Entry.asDictIn : Entry → Py ActionDict
  | .dict a => .ok a
  | .nonDict => .error .typeError

/-- Python `int(q)`: truncation toward zero. -/
def pyInt (q : ℚ) : ℤ := Int.tdiv q.num q.den

/-- Round a rational to the nearest integer, ties to even (Python's
`round`). -/
def roundHalfEvenInt (q : ℚ) : ℤ :=
  if q - (q.floor : ℚ) < 1/2 then q.floor
  else if 1/2 < q - (q.floor : ℚ) then q.floor + 1
  else if 2 ∣ q.floor then q.floor else q.floor + 1

/-- Python `round(q, n)`. -/
def pyRound (q : ℚ) (n : ℕ) : ℚ :=
  (roundHalfEvenInt (q * 10 ^ n) : ℚ) / 10 ^ n

/-- The UI layout loaded from `UI_CONFIG.json` at construction time: canvas
rectangle, named tool buttons, ordered color swatches, tolerance.  Tool and
color tables are association lists in declaration order (first match
wins). -/
structure Layout where
  canvasWidth : ℚ
  canvasHeight : ℚ
  offsetX : ℚ
  offsetY : ℚ
  tools : List (String × ℚ × ℚ)
  colors : List (ℚ × ℚ × String)
  tolerance : ℚ
  deriving DecidableEq, Repr

/-- Canvas dimensions are positive (Python would raise
`ZeroDivisionError` otherwise). -/
def Layout.wf (L : Layout) : Prop :=
  0 < L.canvasWidth ∧ 0 < L.canvasHeight

instance (L : Layout) : Decidable L.wf := by unfold Layout.wf; infer_instance

/-- A diagnostic record: its `type` field and `index` field (`none` when the
record carries no index, as for warnings).  Message strings are elided. -/
structure Diag where
  dtype : String
  index : Option ℤ
  deriving DecidableEq, Repr

/-- A value in the `metrics` map. -/
inductive MVal
  | nat (n : ℕ)
  | rat (q : ℚ)
  | strList (l : List String)
  | none
  | constraints (region : Option String)
  deriving DecidableEq, Repr

/-- Lookup in an association-list map. -/
def getMap (m : List (String × MVal)) (k : String) : Option MVal :=
  (m.find? (fun p => p.1 = k)).map (fun p => p.2)

/-- Per-tool entries of `criteria_met` produced by `_check_criteria`
(`tool_<t>_used`, `tool_<t>_selected`, `tool_<t>_actually_used`). -/
structure ToolCheck where
  name : String
  used : Bool
  selected : Bool
  actuallyUsed : Bool
  deriving DecidableEq, Repr

/-- The `criteria_met` map.  Each `Option` field models presence/absence of
the corresponding key (fields set together in the source are grouped). -/
structure CriteriaMet where
  tools : List ToolCheck
  minSegmentsMet : Option Bool
  actualSegments : Option ℕ
  colorsChanged : Option ℕ
  minColorsMet : Option Bool
  colorsExactUsed : Option (Finset String)
  colorsMatched : Option ℕ
  colorsMissing : Option (Finset String)
  minColorsExactMet : Option Bool
  canvasCoverage : Option ℚ
  minCoverageMet : Option Bool
  canvasCoverageAccurate : Option ℚ
  minCoverageAccurateMet : Option Bool
  deriving DecidableEq

/-- The optional evaluation criteria (a non-empty criteria dictionary;
`none` at `evaluate` models an absent or empty/falsy criteria argument).
Each field models presence of the corresponding key. -/
structure Criteria where
  requiredTools : Option (List String)
  requiredColors : Option (List String)
  minSegments : Option ℤ
  minCoverage : Option ℚ
  prompt : Option String
  deriving DecidableEq, Repr

/-- One entry of the `spatial_errors` classification bucket. -/
inductive SpatialErr
  | insufficientCoverage (actual required : ℚ)
  | incorrectPlacement (accuracy : ℚ) (region : Option String)
  deriving DecidableEq, Repr

/-- One entry of the `planning_errors` classification bucket. -/
structure PlanErr where
  actual : ℕ
  required : ℤ
  deriving DecidableEq, Repr

/-- The `error_classification` map built by `_classify_errors`. -/
structure Classification where
  spatialErrors : List SpatialErr
  toolErrors : List String
  colorErrors : List String
  planningErrors : List PlanErr
  syntaxErrors : List Diag
  deriving DecidableEq, Repr

/-- The dictionary returned by `evaluate`.  `actionBreakdown` and `metrics`
are insertion-ordered maps, as in the source; `Option` fields model keys that
are only sometimes present. -/
structure Results where
  totalActions : ℕ
  actionBreakdown : List (String × ℕ)
  errors : List Diag
  warnings : List Diag
  metrics : List (String × MVal)
  criteriaMet : Option CriteriaMet
  colorsRequired : Option ℕ
  minCoverage : Option ℚ
  score : ℚ
  errorClassification : Option Classification
  deriving DecidableEq

/-! ## Action Stream Validator -/

/-- `_count_actions`: per-type counts, an insertion-ordered map with keys
`moveTo, click, mouseDown, mouseUp, unknown` (the key order of the `counts`
dict in the source). -/
def countActionsAux : List Entry → ℕ → ℕ → ℕ → ℕ → ℕ → Py (List (String × ℕ))
  | [], m, c, d, u, k =>
    .ok [("moveTo", m), ("click", c), ("mouseDown", d), ("mouseUp", u), ("unknown", k)]
  | e :: rest, m, c, d, u, k => do
    let a ← e.asDict
    match a.act.getD "unknown" with
    | "moveTo" => countActionsAux rest (m + 1) c d u k
    | "click" => countActionsAux rest m (c + 1) d u k
    | "mouseDown" => countActionsAux rest m c (d + 1) u k
    | "mouseUp" => countActionsAux rest m c d (u + 1) k
    | _ => countActionsAux rest m c d u (k + 1)

/-- `_count_actions` over a whole action list. -/
def countActions (acts : List Entry) : Py (List (String × ℕ)) :=
  countActionsAux acts 0 0 0 0 0

/-- The list of valid action discriminators. -/
def validActions : List String := ["moveTo", "click", "mouseDown", "mouseUp"]

/-- `_check_syntax_errors`. -/
def checkSyntaxErrorsAux : List Entry → ℕ → Py (List Diag)
  | [], _ => .ok []
  | e :: rest, i => do
    let a ← e.asDictIn
    let here : List Diag :=
      match a.act with
      | Option.none => [⟨"SYNTAX_ERROR", some (i : ℤ)⟩]
      | some t =>
        (if t = "moveTo" ∧ (a.x.isNone ∨ a.y.isNone) then
          [(⟨"SYNTAX_ERROR", some (i : ℤ)⟩ : Diag)] else []) ++
        (if t ∉ validActions then [(⟨"SYNTAX_ERROR", some (i : ℤ)⟩ : Diag)] else [])
    let tl ← checkSyntaxErrorsAux rest (i + 1)
    .ok (here ++ tl)

/-- `_check_syntax_errors` over a whole action list. -/
def checkSyntaxErrors (acts : List Entry) : Py (List Diag) :=
  checkSyntaxErrorsAux acts 0

/-- Diagnostics `_check_coordinate_errors` emits for the single action `a`
sitting at index `i`: nothing without both coordinate keys, a SYNTAX_ERROR
on a failed float conversion, a COORDINATE_ERROR for a point outside the
screen rectangle `[0,1500]×[0,900]`, and for a `mouseDown` additionally a
COORDINATE_ERROR for a point outside the canvas rectangle. -/
def coordErrsOf (L : Layout) (a : ActionDict) (i : ℕ) : List Diag :=
  match a.x, a.y with
  | some vx, some vy =>
    match vx.toQ?, vy.toQ? with
    | some qx, some qy =>
      (if qx < 0 ∨ qx > 1500 ∨ qy < 0 ∨ qy > 900 then
        [(⟨"COORDINATE_ERROR", some (i : ℤ)⟩ : Diag)] else []) ++
      (if a.act = some "mouseDown" then
        if qx - L.offsetX < 0 ∨ qx - L.offsetX > L.canvasWidth ∨
            qy - L.offsetY < 0 ∨ qy - L.offsetY > L.canvasHeight then
          [(⟨"COORDINATE_ERROR", some (i : ℤ)⟩ : Diag)] else []
      else [])
    | _, _ => [⟨"SYNTAX_ERROR", some (i : ℤ)⟩]
  | _, _ => []

/-- `_check_coordinate_errors`.  Screen bounds are the hardcoded
`[0,1500]×[0,900]` rectangle; the second check (mouseDown only) uses the
canvas rectangle from the layout.  Message strings are elided. -/
def checkCoordinateErrorsAux (L : Layout) : List Entry → ℕ → Py (List Diag)
  | [], _ => .ok []
  | e :: rest, i => do
    let a ← e.asDictIn
    let tl ← checkCoordinateErrorsAux L rest (i + 1)
    .ok (coordErrsOf L a i ++ tl)

/-- `_check_coordinate_errors` over a whole action list. -/
def checkCoordinateErrors (L : Layout) (acts : List Entry) : Py (List Diag) :=
  checkCoordinateErrorsAux L acts 0

/-- Count the actions whose discriminator equals `t` (the generator
expressions over `actions` in `_check_efficiency_warnings`). -/
def countActType (t : String) : List Entry → Py ℕ
  | [] => .ok 0
  | e :: rest => do
    let a ← e.asDict
    let n ← countActType t rest
    .ok (if a.act = some t then n + 1 else n)

/-- The scan for three consecutive `moveTo` actions (first occurrence only),
with the source's short-circuit evaluation order. -/
def tripleMoveToScan : List Entry → Py Bool
  | a :: b :: rest => do
    let da ← a.asDict
    if da.act = some "moveTo" then do
      let db ← b.asDict
      if db.act = some "moveTo" then
        match rest with
        | c :: _ => do
          let dc ← c.asDict
          if dc.act = some "moveTo" then .ok true else tripleMoveToScan (b :: rest)
        | [] => tripleMoveToScan (b :: rest)
      else tripleMoveToScan (b :: rest)
    else tripleMoveToScan (b :: rest)
  | _ => .ok false

/-- `_check_efficiency_warnings`: action-count warning, consecutive-moveTo
warning, unmatched mouseDown/mouseUp `LOGIC_ERROR`, in that order. -/
def checkEfficiencyWarnings (acts : List Entry) : Py (List Diag) := do
  let w1 : List Diag :=
    if acts.length > 1000 then [⟨"EFFICIENCY_WARNING", Option.none⟩] else []
  let triple ← tripleMoveToScan acts
  let w2 : List Diag := if triple then [⟨"EFFICIENCY_WARNING", Option.none⟩] else []
  let down ← countActType "mouseDown" acts
  let up ← countActType "mouseUp" acts
  let w3 : List Diag := if down ≠ up then [⟨"LOGIC_ERROR", Option.none⟩] else []
  .ok (w1 ++ w2 ++ w3)

/-! ## Spatial Analyzer -/

/-- First tool button whose ±40px window contains the point (declaration
order), with the source's short-circuit conversion order: the x coordinate
is converted first, the y coordinate only when the x window matches. -/
def toolScan : List (String × ℚ × ℚ) → PyVal → PyVal → Py (Option String)
  | [], _, _ => .ok Option.none
  | (n, tx, ty) :: rest, vx, vy => do
    let qx ← vx.toQ
    if |qx - tx| < 40 then do
      let qy ← vy.toQ
      if |qy - ty| < 40 then .ok (some n) else toolScan rest vx vy
    else toolScan rest vx vy

/-- First color swatch whose ±12px/±8px window contains the point
(declaration order, inclusive tolerances). -/
def colorScan : List (ℚ × ℚ × String) → PyVal → PyVal → Py (Option String)
  | [], _, _ => .ok Option.none
  | (cx, cy, hex) :: rest, vx, vy => do
    let qx ← vx.toQ
    if |qx - cx| ≤ 12 then do
      let qy ← vy.toQ
      if |qy - cy| ≤ 8 then .ok (some hex) else colorScan rest vx vy
    else colorScan rest vx vy

/-- `_count_tool_changes`.  Only the `click` branch counts; the
`moveTo`-then-`click` branch of the source scans the tool table (possibly
raising) but never increments. -/
def countToolChanges (L : Layout) : List Entry → Py ℕ
  | [] => .ok 0
  | e :: rest => do
    let a ← e.asDict
    let add ←
      if a.act = some "click" then do
        let hit ← toolScan L.tools (a.x.getD (.num 0)) (a.y.getD (.num 0))
        pure (if hit.isSome then (1 : ℕ) else 0)
      else
        match rest with
        | b :: _ =>
          if a.act = some "moveTo" then do
            let db ← b.asDict
            if db.act = some "click" then do
              let _ ← toolScan L.tools (a.x.getD (.num 0)) (a.y.getD (.num 0))
              pure 0
            else pure 0
          else pure 0
        | [] => pure 0
    let n ← countToolChanges L rest
    .ok (add + n)

/-- `_count_color_changes`: clicks inside the hardcoded color strip
(`405 ≤ x ≤ 741`, `|y − 25| < 20`). -/
def countColorChanges : List Entry → Py ℕ
  | [] => .ok 0
  | e :: rest => do
    let a ← e.asDict
    let add ←
      if a.act = some "click" then do
        let qx ← (a.x.getD (.num 0)).toQ
        if 405 ≤ qx ∧ qx ≤ 741 then do
          let qy ← (a.y.getD (.num 0)).toQ
          pure (if |qy - 25| < 20 then (1 : ℕ) else 0)
        else pure 0
      else pure 0
    let n ← countColorChanges rest
    .ok (add + n)

/-- `_detect_exact_colors_used`: ordered list of resolved hex codes, one per
qualifying `click` or `moveTo`-followed-by-`click`, duplicates retained. -/
def detectExactColorsUsed (L : Layout) : List Entry → Py (List String)
  | [] => .ok []
  | e :: rest => do
    let a ← e.asDict
    let here : List String ←
      if a.act = some "click" then do
        let hit ← colorScan L.colors (a.x.getD (.num 0)) (a.y.getD (.num 0))
        pure hit.toList
      else if a.act = some "moveTo" then
        match rest with
        | b :: _ => do
          let db ← b.asDict
          if db.act = some "click" then do
            let hit ← colorScan L.colors (a.x.getD (.num 0)) (a.y.getD (.num 0))
            pure hit.toList
          else pure []
        | [] => pure []
      else pure []
    let tl ← detectExactColorsUsed L rest
    .ok (here ++ tl)

/-- `_count_drawing_segments`: a segment opens on a `mouseDown` not already
inside an open segment and closes on the next `mouseUp`. -/
def countDrawingSegmentsAux : List Entry → Bool → Py ℕ
  | [], _ => .ok 0
  | e :: rest, inSeg => do
    let a ← e.asDict
    if a.act = some "mouseDown" then
      if inSeg then countDrawingSegmentsAux rest true
      else do
        let n ← countDrawingSegmentsAux rest true
        .ok (n + 1)
    else if a.act = some "mouseUp" then countDrawingSegmentsAux rest false
    else countDrawingSegmentsAux rest inSeg

/-- `_count_drawing_segments` on a whole list. -/
def countDrawingSegments (acts : List Entry) : Py ℕ :=
  countDrawingSegmentsAux acts false

/-- The canvas-relative positions collected by `_estimate_canvas_coverage`
(flag update happens before the collection test, so a `mouseDown` with
coordinates is collected and a `mouseUp` is not). -/
def coarsePositions (L : Layout) : List Entry → Bool → Py (List (ℚ × ℚ))
  | [], _ => .ok []
  | e :: rest, drawing => do
    let a ← e.asDict
    let drawing :=
      if a.act = some "mouseDown" then true
      else if a.act = some "mouseUp" then false
      else drawing
    let here : List (ℚ × ℚ) ←
      if drawing ∧ a.x.isSome ∧ a.y.isSome then do
        let qx ← (a.x.getD (.num 0)).toQ
        let qy ← (a.y.getD (.num 0)).toQ
        let cx := qx - L.offsetX
        let cy := qy - L.offsetY
        pure (if 0 ≤ cx ∧ cx ≤ L.canvasWidth ∧ 0 ≤ cy ∧ cy ≤ L.canvasHeight then
          [(cx, cy)] else [])
      else pure []
    let tl ← coarsePositions L rest drawing
    .ok (here ++ tl)

/-- `_estimate_canvas_coverage`: bounding-box area of the collected points
over the canvas area, rounded to 4 decimals; `0.0` when no point was
collected. -/
def estimateCanvasCoverage (L : Layout) (acts : List Entry) : Py ℚ := do
  let ps ← coarsePositions L acts false
  match ps with
  | [] => .ok 0
  | p :: rest =>
    let xs := (p :: rest).map Prod.fst
    let ys := (p :: rest).map Prod.snd
    let bbox := (xs.foldl max p.1 - xs.foldl min p.1) *
      (ys.foldl max p.2 - ys.foldl min p.2)
    .ok (pyRound (bbox / (L.canvasWidth * L.canvasHeight)) 4)

/-- Grid index of a canvas-relative coordinate (lines 496–499 of the
source): truncate `(v / size) * 20` toward zero, then clamp to 19. -/
def gridIdx (v size : ℚ) : ℕ := min (pyInt (v / size * 20)).toNat 19

/-- Cells marked by the rectangle branch of `_fill_shape_in_grid`. -/
def rectangleCells (L : Layout) (cx1 cy1 cx2 cy2 : ℚ) : Finset (ℕ × ℕ) :=
  let mingx : ℤ := max 0 (pyInt (min cx1 cx2 / L.canvasWidth * 20))
  let maxgx : ℤ := min 19 (pyInt (max cx1 cx2 / L.canvasWidth * 20))
  let mingy : ℤ := max 0 (pyInt (min cy1 cy2 / L.canvasHeight * 20))
  let maxgy : ℤ := min 19 (pyInt (max cy1 cy2 / L.canvasHeight * 20))
  ((Finset.Icc mingx maxgx) ×ˢ (Finset.Icc mingy maxgy)).image
    (fun p => (p.1.toNat, p.2.toNat))

/-- Cells marked by the line branch of `_fill_shape_in_grid`: unit-pixel
sampling along the dominant axis. -/
def lineCells (L : Layout) (cx1 cy1 cx2 cy2 : ℚ) : Finset (ℕ × ℕ) :=
  let steps : ℤ := pyInt (max |cx2 - cx1| |cy2 - cy1|) + 1
  ((List.range steps.toNat).filterMap (fun i =>
    let t : ℚ := (i : ℚ) / ((max (steps - 1) 1 : ℤ) : ℚ)
    let x := cx1 + t * (cx2 - cx1)
    let y := cy1 + t * (cy2 - cy1)
    if 0 ≤ x ∧ x ≤ L.canvasWidth ∧ 0 ≤ y ∧ y ≤ L.canvasHeight then
      some (gridIdx x L.canvasWidth, gridIdx y L.canvasHeight)
    else Option.none)).toFinset

/-- The abstracted circle rasterizer (see the module docstring): given the
canvas-relative control points, the set of cells the floating-point polar
sweep of the circle branch marks. -/
abbrev CircleFn := ℚ → ℚ → ℚ → ℚ → Finset (ℕ × ℕ)

/-- `_fill_shape_in_grid`: endpoint components are converted first (raising
on non-numeric values), then the tool branch selects the marked cells. -/
def fillShapeCells (L : Layout) (cc : CircleFn) (tool : String)
    (p q : PyVal × PyVal) : Py (Finset (ℕ × ℕ)) := do
  let x1 ← p.1.toQ
  let y1 ← p.2.toQ
  let x2 ← q.1.toQ
  let y2 ← q.2.toQ
  let cx1 := x1 - L.offsetX
  let cy1 := y1 - L.offsetY
  let cx2 := x2 - L.offsetX
  let cy2 := y2 - L.offsetY
  if tool = "rectangle" then .ok (rectangleCells L cx1 cy1 cx2 cy2)
  else if tool = "circle" then .ok (cc cx1 cy1 cx2 cy2)
  else if tool = "line" then .ok (lineCells L cx1 cy1 cx2 cy2)
  else .ok ∅

/-- The scratch state of `_estimate_canvas_coverage_accurate`: coverage
grid, drawing flag, current tool (default `"pen"`), mouse-down anchor,
last-known raw position. -/
structure CovState where
  grid : Finset (ℕ × ℕ)
  isDrawing : Bool
  currentTool : String
  mouseDownPos : Option (PyVal × PyVal)
  lastPos : PyVal × PyVal
  deriving DecidableEq

/-- The initial coverage state. -/
def covInit : CovState := ⟨∅, false, "pen", Option.none, (.num 0, .num 0)⟩

/-- The last-known position after an action: updated when both coordinate
keys are present, kept otherwise (`last_x`/`last_y` in the source loop). -/
def covLast (a : ActionDict) (s : CovState) : PyVal × PyVal :=
  match a.x, a.y with
  | some vx, some vy => (vx, vy)
  | _, _ => s.lastPos

/-- `moveTo`-onto-a-button lookahead check: the hit tool `n` is selected
when the next action (`k`) is a `click`, the current tool `cur` is kept
otherwise; reading the discriminator of a non-dict lookahead raises. -/
def covLookClick (k : Option Entry) (n cur : String) : Py String :=
  match k with
  | some b => b.asDict >>= fun db =>
      pure (if db.act = some "click" then n else cur)
  | Option.none => pure cur

/-- Tool-tracking stage of one `_estimate_canvas_coverage_accurate`
iteration: a `click` with coordinates re-selects the tool whose button
window contains the point; a `moveTo` onto a button window re-selects that
tool when the lookahead action is a `click`. -/
def covTool (L : Layout) (s : CovState) (a : ActionDict)
    (k : Option Entry) : Py String :=
  if a.act = some "click" ∧ a.x.isSome ∧ a.y.isSome then do
    let hit ← toolScan L.tools (a.x.getD (.num 0)) (a.y.getD (.num 0))
    pure (hit.getD s.currentTool)
  else if a.act = some "moveTo" then do
    let hit ← toolScan L.tools (a.x.getD (.num 0)) (a.y.getD (.num 0))
    match hit with
    | some n => covLookClick k n s.currentTool
    | Option.none => pure s.currentTool
  else pure s.currentTool

/-- Segment-tracking stage of one coverage iteration: `mouseDown` opens a
segment anchored at the action point (last position when absent); `mouseUp`
closes it, filling shape cells for rectangle/circle/line; the triple is
(drawing flag, anchor, grid). -/
def covMouse (L : Layout) (cc : CircleFn) (s : CovState) (a : ActionDict)
    (currentTool : String) (lastPos : PyVal × PyVal) :
    Py (Bool × Option (PyVal × PyVal) × Finset (ℕ × ℕ)) :=
  if a.act = some "mouseDown" then
    let mdp : Option (PyVal × PyVal) :=
      match a.x, a.y with
      | some vx, some vy => some (vx, vy)
      | _, _ => some lastPos
    pure (true, mdp, s.grid)
  else if a.act = some "mouseUp" then
    if s.isDrawing ∧ s.mouseDownPos.isSome ∧
        (currentTool = "rectangle" ∨ currentTool = "circle" ∨ currentTool = "line") then do
      let mup :=
        match a.x, a.y with
        | some vx, some vy => (vx, vy)
        | _, _ => lastPos
      let cells ← fillShapeCells L cc currentTool (s.mouseDownPos.getD lastPos) mup
      pure (false, (Option.none : Option (PyVal × PyVal)), s.grid ∪ cells)
    else pure (false, Option.none, s.grid)
  else pure (s.isDrawing, s.mouseDownPos, s.grid)

/-- Cell-marking stage of one coverage iteration: while a segment is open
with the pen or eraser, an action carrying both coordinates marks the grid
cell of its in-canvas point (the flag is the one updated by this
iteration, so the `mouseDown` itself already marks). -/
def covMark (L : Layout) (a : ActionDict) (isDrawing : Bool)
    (currentTool : String) (grid1 : Finset (ℕ × ℕ)) : Py (Finset (ℕ × ℕ)) :=
  if isDrawing ∧ (currentTool = "pen" ∨ currentTool = "eraser") ∧
      a.x.isSome ∧ a.y.isSome then do
    let qx ← (a.x.getD (.num 0)).toQ
    let qy ← (a.y.getD (.num 0)).toQ
    pure (if 0 ≤ qx - L.offsetX ∧ qx - L.offsetX ≤ L.canvasWidth ∧
        0 ≤ qy - L.offsetY ∧ qy - L.offsetY ≤ L.canvasHeight then
      insert (gridIdx (qx - L.offsetX) L.canvasWidth,
        gridIdx (qy - L.offsetY) L.canvasHeight) grid1
    else grid1)
  else pure grid1

/-- One iteration of the `_estimate_canvas_coverage_accurate` loop on entry
`e` whose successor in the list is `k` (the `actions[i+1]` lookahead).
Order within the body mirrors the source: last-position update, tool
tracking, mouseDown/mouseUp handling (shape fill at mouseUp), then
pen/eraser cell marking with the flag as updated by this iteration. -/
def covStep (L : Layout) (cc : CircleFn) (s : CovState) (e : Entry)
    (k : Option Entry) : Py CovState := do
  let a ← e.asDict
  let currentTool ← covTool L s a k
  let p ← covMouse L cc s a currentTool (covLast a s)
  let grid2 ← covMark L a p.1 currentTool p.2.2
  .ok ⟨grid2, p.1, currentTool, p.2.1, covLast a s⟩

/-- The lookahead of the head of a list followed (conceptually) by `k`. -/
def lookNext (rest : List Entry) (k : Option Entry) : Option Entry :=
  match rest with
  | b :: _ => some b
  | [] => k

/-- Run the coverage loop over a list of entries whose (conceptual)
continuation starts with `k`: the lookahead of each element is the next
list element, and `k` for the last one. -/
def covRunL (L : Layout) (cc : CircleFn) :
    CovState → List Entry → Option Entry → Py CovState
  | s, [], _ => .ok s
  | s, e :: rest, k => do
    let s' ← covStep L cc s e (lookNext rest k)
    covRunL L cc s' rest k

/-- The coverage loop over the whole action list. -/
def covRun (L : Layout) (cc : CircleFn) (s : CovState) (acts : List Entry) :
    Py CovState :=
  covRunL L cc s acts Option.none

/-- `_estimate_canvas_coverage_accurate`: filled cells over 400, rounded to
4 decimals. -/
def estimateCanvasCoverageAccurate (L : Layout) (cc : CircleFn)
    (acts : List Entry) : Py ℚ := do
  let s ← covRun L cc covInit acts
  .ok (pyRound ((s.grid.card : ℚ) / 400) 4)

/-- Scan for a tool's first selection event (the moveTo-then-click pattern
or a click with coordinates), shared by `_verify_tool_actually_used` and
the `required_tools` loop of `_check_criteria`.  Returns the part of the
list after the selection index, `none` when no selection is found. -/
def toolSelScan (tx ty : ℚ) : List Entry → Py (Option (List Entry))
  | [] => .ok Option.none
  | e :: rest => do
    let a ← e.asDict
    if a.act = some "moveTo" then do
      let qx ← (a.x.getD (.num 0)).toQ
      if |qx - tx| < 40 then do
        let qy ← (a.y.getD (.num 0)).toQ
        if |qy - ty| < 40 then
          match rest with
          | b :: rest2 => do
            let db ← b.asDict
            if db.act = some "click" then .ok (some rest2)
            else toolSelScan tx ty rest
          | [] => toolSelScan tx ty rest
        else toolSelScan tx ty rest
      else toolSelScan tx ty rest
    else if a.act = some "click" ∧ a.x.isSome then do
      let qx ← (a.x.getD (.num 0)).toQ
      if |qx - tx| < 40 then do
        let qy ← (a.y.getD (.num 0)).toQ
        if |qy - ty| < 40 then .ok (some rest) else toolSelScan tx ty rest
      else toolSelScan tx ty rest
    else toolSelScan tx ty rest

/-- Scan the tool table for a button of a tool other than `tool` whose
window contains the point (the inner loop of the forward scan of
`_verify_tool_actually_used`); the name test short-circuits before any
coordinate arithmetic. -/
def otherToolHit (tool : String) :
    List (String × ℚ × ℚ) → PyVal → PyVal → Py Bool
  | [], _, _ => .ok false
  | (n, tx, ty) :: rest, vx, vy =>
    if n ≠ tool then do
      let qx ← vx.toQ
      if |qx - tx| < 40 then do
        let qy ← vy.toQ
        if |qy - ty| < 40 then .ok true else otherToolHit tool rest vx vy
      else otherToolHit tool rest vx vy
    else otherToolHit tool rest vx vy

/-- Forward scan of `_verify_tool_actually_used` from the selection index:
a `mouseDown` means the tool was used; hitting another tool's button first
means selected-but-unused; so does running out of actions. -/
def toolUsedScan (L : Layout) (tool : String) : List Entry → Py Bool
  | [] => .ok false
  | e :: rest => do
    let a ← e.asDict
    if a.act = some "mouseDown" then .ok true
    else if a.act = some "moveTo" ∨ a.act = some "click" then do
      let hit ← otherToolHit tool L.tools (a.x.getD (.num 0)) (a.y.getD (.num 0))
      if hit then .ok false else toolUsedScan L tool rest
    else toolUsedScan L tool rest

/-- Embeds `_verify_tool_actually_used`: the `(was_selected, was_used)`
pair. -/
def verifyToolActuallyUsed (L : Layout) (acts : List Entry) (tool : String) :
    Py (Bool × Bool) := do
  match L.tools.find? (fun p => p.1 = tool) with
  | Option.none => .ok (false, false)
  | some (_, tx, ty) => do
    let after ← toolSelScan tx ty acts
    match after with
    | Option.none => .ok (false, false)
    | some rest => do
      let used ← toolUsedScan L tool rest
      .ok (true, used)

/-! ## Criteria Evaluator -/

/-- Per-tool entries of the `required_tools` loop of `_check_criteria`. -/
def checkRequiredTools (L : Layout) (acts : List Entry) :
    List String → Py (List ToolCheck)
  | [] => .ok []
  | t :: ts => do
    let used ←
      match L.tools.find? (fun p => p.1 = t) with
      | some (_, tx, ty) => do
        let sel ← toolSelScan tx ty acts
        pure sel.isSome
      | Option.none => pure false
    let pr ← verifyToolActuallyUsed L acts t
    let tl ← checkRequiredTools L acts ts
    .ok (⟨t, used, pr.1, pr.2⟩ :: tl)

/-- Embeds `_check_criteria`. -/
def checkCriteria (L : Layout) (cc : CircleFn) (acts : List Entry)
    (c : Criteria) : Py CriteriaMet := do
  let tools ←
    match c.requiredTools with
    | some ts => checkRequiredTools L acts ts
    | Option.none => pure []
  let segPart ←
    match c.minSegments with
    | some m => do
      let n ← countDrawingSegments acts
      pure (some (decide ((m : ℤ) ≤ (n : ℤ))), some n)
    | Option.none => pure ((Option.none : Option Bool), (Option.none : Option ℕ))
  let colorPart ←
    match c.requiredColors with
    | some req => do
      let n ← countColorChanges acts
      let exact ← detectExactColorsUsed L acts
      let requiredSet := req.toFinset
      let usedSet := exact.toFinset
      let matched := requiredSet ∩ usedSet
      let missing := requiredSet \ usedSet
      pure (some n, some (decide (req.length ≤ n)), some usedSet,
        some matched.card, some missing, some (decide (requiredSet.card ≤ matched.card)))
    | Option.none => pure ((Option.none : Option ℕ), (Option.none : Option Bool),
        (Option.none : Option (Finset String)), (Option.none : Option ℕ),
        (Option.none : Option (Finset String)), (Option.none : Option Bool))
  let covPart ←
    match c.minCoverage with
    | some mc => do
      let cov ← estimateCanvasCoverage L acts
      let acc ← estimateCanvasCoverageAccurate L cc acts
      pure (some cov, some (decide (mc ≤ cov)), some acc, some (decide (mc ≤ acc)))
    | Option.none => pure ((Option.none : Option ℚ), (Option.none : Option Bool),
        (Option.none : Option ℚ), (Option.none : Option Bool))
  .ok ⟨tools, segPart.1, segPart.2, colorPart.1, colorPart.2.1, colorPart.2.2.1,
    colorPart.2.2.2.1, colorPart.2.2.2.2.1, colorPart.2.2.2.2.2,
    covPart.1, covPart.2.1, covPart.2.2.1, covPart.2.2.2⟩

/-- Fold of `_calculate_drawing_centroid`.  The fourth branch of the
source's if/elif chain (append an in-canvas moveTo point while drawing) is
dead code — a `moveTo` with coordinates always takes the first branch — and
is modelled as written.  Canvas membership here is half-open, as in the
source. -/
def centroidFold (L : Layout) :
    List Entry → Bool → Option (PyVal × PyVal) → Py (List (ℚ × ℚ))
  | [], _, _ => .ok []
  | e :: rest, isDrawing, currentPos => do
    let a ← e.asDict
    if a.act.getD "" = "moveTo" ∧ a.x.isSome ∧ a.y.isSome then
      centroidFold L rest isDrawing (some (a.x.getD (.num 0), a.y.getD (.num 0)))
    else if a.act.getD "" = "mouseDown" ∧ currentPos.isSome then do
      let p := currentPos.getD (.num 0, .num 0)
      let qx ← p.1.toQ
      let here : List (ℚ × ℚ) ←
        if L.offsetX ≤ qx ∧ qx < L.offsetX + L.canvasWidth then do
          let qy ← p.2.toQ
          pure (if L.offsetY ≤ qy ∧ qy < L.offsetY + L.canvasHeight then
            [(qx, qy)] else [])
        else pure []
      let tl ← centroidFold L rest true currentPos
      .ok (here ++ tl)
    else if a.act.getD "" = "mouseUp" then
      centroidFold L rest false currentPos
    else if isDrawing ∧ a.act.getD "" = "moveTo" ∧ a.x.isSome ∧ a.y.isSome then do
      let qx ← (a.x.getD (.num 0)).toQ
      let here : List (ℚ × ℚ) ←
        if L.offsetX ≤ qx ∧ qx < L.offsetX + L.canvasWidth then do
          let qy ← (a.y.getD (.num 0)).toQ
          pure (if L.offsetY ≤ qy ∧ qy < L.offsetY + L.canvasHeight then
            [(qx, qy)] else [])
        else pure []
      let tl ← centroidFold L rest isDrawing currentPos
      .ok (here ++ tl)
    else centroidFold L rest isDrawing currentPos

/-- Embeds `_calculate_drawing_centroid`: `none` when no drawing point was
collected, else the mean position shifted to canvas-relative
coordinates. -/
def calculateDrawingCentroid (L : Layout) (acts : List Entry) :
    Py (Option (ℚ × ℚ)) := do
  let pts ← centroidFold L acts false Option.none
  match pts with
  | [] => .ok Option.none
  | _ :: _ =>
    let n : ℚ := (pts.length : ℚ)
    let ax := (pts.map Prod.fst).sum / n
    let ay := (pts.map Prod.snd).sum / n
    .ok (some (ax - L.offsetX, ay - L.offsetY))

/-- Lower-casing of one ASCII character (the effect of Python's
`str.lower()` on the ASCII prompts this model covers). -/
def lowerChar (c : Char) : Char :=
  if 'A' ≤ c ∧ c ≤ 'Z' then Char.ofNat (c.toNat + 32) else c

/-- ASCII lower-casing of a string (`prompt.lower()`). -/
def strLower (s : String) : String := ⟨s.data.map lowerChar⟩

/-- Whether `pat` is a prefix of the character list. -/
def chPrefix : List Char → List Char → Bool
  | [], _ => true
  | _ :: _, [] => false
  | a :: as, b :: bs => a = b && chPrefix as bs

/-- Whether `pat` occurs inside the character list. -/
def chInfix (pat : List Char) : List Char → Bool
  | [] => chPrefix pat []
  | b :: bs => chPrefix pat (b :: bs) || chInfix pat bs

/-- Substring test, Python's `pat in s` for a non-empty pattern. -/
def strContains (s pat : String) : Bool := chInfix pat.data s.data

/-- Embeds `_extract_spatial_constraints`: keyword match against the nine
regions, compound phrases before generic singles; `none` models the empty
constraints dict (including the falsy-prompt early return). -/
def extractSpatialConstraints (prompt : String) : Option String :=
  if prompt = "" then Option.none
  else
    let p := strLower prompt
    if strContains p "top-left" ∨ strContains p "upper-left" ∨
        strContains p "top left" then some "top-left"
    else if strContains p "top-right" ∨ strContains p "upper-right" ∨
        strContains p "top right" then some "top-right"
    else if strContains p "bottom-left" ∨ strContains p "lower-left" ∨
        strContains p "bottom left" then some "bottom-left"
    else if strContains p "bottom-right" ∨ strContains p "lower-right" ∨
        strContains p "bottom right" then some "bottom-right"
    else if strContains p "center" ∨ strContains p "middle" ∨
        strContains p "centre" then some "center"
    else if strContains p "top" ∨ strContains p "upper" then some "top"
    else if strContains p "bottom" ∨ strContains p "lower" then some "bottom"
    else if strContains p "left" then some "left"
    else if strContains p "right" then some "right"
    else Option.none

/-- Region-center table of `_evaluate_spatial_accuracy` (canvas-relative
3×3 partition). -/
def regionCenters (L : Layout) (r : String) : Option (ℚ × ℚ) :=
  let tw := L.canvasWidth / 3
  let th := L.canvasHeight / 3
  if r = "top-left" then some (tw / 2, th / 2)
  else if r = "top" then some (L.canvasWidth / 2, th / 2)
  else if r = "top-right" then some (L.canvasWidth - tw / 2, th / 2)
  else if r = "left" then some (tw / 2, L.canvasHeight / 2)
  else if r = "center" then some (L.canvasWidth / 2, L.canvasHeight / 2)
  else if r = "right" then some (L.canvasWidth - tw / 2, L.canvasHeight / 2)
  else if r = "bottom-left" then some (tw / 2, L.canvasHeight - th / 2)
  else if r = "bottom" then some (L.canvasWidth / 2, L.canvasHeight - th / 2)
  else if r = "bottom-right" then
    some (L.canvasWidth - tw / 2, L.canvasHeight - th / 2)
  else Option.none

/-- Abstraction of the float square root (see the module docstring). -/
abbrev SqrtFn := ℚ → ℚ

/-- Embeds `_evaluate_spatial_accuracy` for a detected region: `some 0`
when the centroid is undefined (the source's "No drawing, no accuracy"
early return of `0.0`), else `1 − distance/diagonal` clamped below at 0. -/
def evaluateSpatialAccuracy (L : Layout) (rs : SqrtFn) (acts : List Entry)
    (region : String) : Py (Option ℚ) := do
  let c ← calculateDrawingCentroid L acts
  match c with
  | Option.none => .ok (some 0)
  | some (cx, cy) =>
    match regionCenters L region with
    | Option.none => .ok Option.none
    | some (tx, ty) =>
      let dist := rs ((cx - tx) ^ 2 + (cy - ty) ^ 2)
      let maxd := rs (L.canvasWidth ^ 2 + L.canvasHeight ^ 2)
      .ok (some (max 0 (1 - dist / maxd)))

/-- Embeds `_calculate_action_efficiency` (only ever called with truthy
criteria): minimum-action estimate, banded ratio. -/
def calculateActionEfficiency (n : ℕ) (c : Criteria) : Option ℚ :=
  let mins : ℤ := ((c.requiredTools.getD []).length : ℤ) +
    ((c.requiredColors.getD []).length : ℤ) +
    (match c.minSegments with | some m => m * 3 | Option.none => 0)
  if mins = 0 then Option.none
  else
    let rq : ℚ := (n : ℚ) / (mins : ℚ)
    let eff : ℚ := if rq ≤ 1.5 then 1 else if rq ≤ 2 then 0.8
      else if rq ≤ 3 then 0.6 else 0.4
    some (pyRound eff 3)

/-! ## Scorer -/

/-- The empty `criteria_met` map (every `.get` on it takes its default). -/
def emptyCM : CriteriaMet :=
  ⟨[], Option.none, Option.none, Option.none, Option.none, Option.none,
    Option.none, Option.none, Option.none, Option.none, Option.none,
    Option.none, Option.none⟩

/-- Numeric read of a metrics entry (`results['metrics'].get(k, 0)` used in
arithmetic): absent key defaults to 0. -/
def metricQ (m : List (String × MVal)) (k : String) : ℚ :=
  match getMap m k with
  | some (.nat n) => (n : ℚ)
  | some (.rat q) => q
  | _ => 0

/-- Tool penalty of `_calculate_score`: −0.15 per failed strict
`actually_used` check.  (Every tool entry `_check_criteria` produces carries
its strict check, so the loose-flag fallback of the source never fires on a
representable `criteria_met` map.) -/
def toolPenalty (cm : Option CriteriaMet) : ℚ :=
  0.15 * ((((cm.getD emptyCM).tools.filter (fun t => ¬ t.actuallyUsed)).length : ℕ) : ℚ)

/-- Color penalty of `_calculate_score`: exact-matching data if available,
else the loose click-count fallback; −0.05 per missing color either way. -/
def colorPenalty (cm : Option CriteriaMet) (colorsRequired : Option ℕ) : ℚ :=
  let m := cm.getD emptyCM
  match m.minColorsExactMet with
  | some b =>
    if b then 0
    else
      let req := colorsRequired.getD 0
      let matched := m.colorsMatched.getD 0
      0.05 * ((((req : ℤ) - (matched : ℤ)).toNat : ℕ) : ℚ)
  | Option.none =>
    if m.minColorsMet.getD true then 0
    else
      let req := colorsRequired.getD 0
      let used := m.colorsChanged.getD 0
      0.05 * ((((req : ℤ) - (used : ℤ)).toNat : ℕ) : ℚ)

/-- Segment penalty of `_calculate_score`: flat −0.15 when `min_segments`
is unmet. -/
def segmentPenalty (cm : Option CriteriaMet) : ℚ :=
  if (cm.getD emptyCM).minSegmentsMet.getD true then 0 else 0.15

/-- Coverage penalty of `_calculate_score` (lines 781–799): when the
accurate check is available and failed, the proportional penalty
`max(0, required − actual)/required × 0.12` if the required coverage is
positive and no penalty otherwise; when the accurate check is unavailable,
a flat 0.12 if the coarse check failed. -/
def coveragePenalty (cm : Option CriteriaMet) (minCov : Option ℚ)
    (metrics : List (String × MVal)) : ℚ :=
  match (cm.getD emptyCM).minCoverageAccurateMet with
  | some b =>
    if b then 0
    else
      if 0 < minCov.getD 0 then
        max 0 (minCov.getD 0 - metricQ metrics "canvas_coverage_accurate") /
          minCov.getD 0 * 0.12
      else 0
  | Option.none =>
    if (cm.getD emptyCM).minCoverageMet.getD true then 0 else 0.12

/-- Embeds `_calculate_score`: start at 1.0, subtract the criteria and
diagnostics penalties, add the conditional action-count bonus, round to 3
decimals, clamp to [0,1]. -/
def calcScore (cm : Option CriteriaMet) (colorsRequired : Option ℕ)
    (minCov : Option ℚ) (metrics : List (String × MVal))
    (errors warnings : List Diag) (totalActions : ℕ) : ℚ :=
  let s1 : ℚ := 1 - toolPenalty cm - colorPenalty cm colorsRequired -
    segmentPenalty cm - coveragePenalty cm minCov metrics -
    (errors.length : ℚ) * 0.08 - (warnings.length : ℚ) * 0.02
  let s2 : ℚ :=
    if 10 ≤ totalActions ∧ totalActions ≤ 500 ∧ 0.2 ≤ s1 then s1 + 0.05 else s1
  max 0 (min 1 (pyRound s2 3))

/-! ## Error Classifier and evaluate -/

/-- Embeds `_classify_errors` for truthy criteria. -/
def classifyErrors (c : Criteria) (cm : Option CriteriaMet)
    (metrics : List (String × MVal)) (errors : List Diag) : Classification :=
  let m := cm.getD emptyCM
  let toolErrs := (m.tools.filter (fun t => ¬ t.actuallyUsed)).map ToolCheck.name
  let exactUsed : List String :=
    match getMap metrics "exact_colors_used" with
    | some (.strList l) => l
    | _ => []
  let colorErrs :=
    match c.requiredColors with
    | some req => req.filter (fun col => col ∉ exactUsed)
    | Option.none => []
  let covErrs : List SpatialErr :=
    match c.minCoverage with
    | some req =>
      let actual := metricQ metrics "canvas_coverage_accurate"
      if actual < req then [.insufficientCoverage actual req] else []
    | Option.none => []
  let segErrs : List PlanErr :=
    match c.minSegments with
    | some req =>
      let actual : ℕ :=
        match getMap metrics "drawing_segments" with
        | some (.nat n) => n
        | _ => 0
      if (actual : ℤ) < req then [⟨actual, req⟩] else []
    | Option.none => []
  let spatErrs : List SpatialErr :=
    match getMap metrics "spatial_accuracy" with
    | some (.rat a) =>
      if a < 0.7 then
        let reg : Option String :=
          match getMap metrics "spatial_constraints" with
          | some (.constraints r) => r
          | _ => Option.none
        [.incorrectPlacement a reg]
      else []
    | _ => []
  ⟨covErrs ++ spatErrs, toolErrs, colorErrs, segErrs, errors⟩

/-- The empty classification record built when no criteria were supplied
(lines 142–148 of the source). -/
def emptyClassification : Classification := ⟨[], [], [], [], []⟩

/-- The degenerate full result returned for non-list input (lines 62–81 of
the source): one top-level SYNTAX_ERROR at index −1, empty breakdown map,
six zeroed metric entries, score 0.0, and no criteria/classification keys. -/
def degenerateResult : Results :=
  { totalActions := 0
    actionBreakdown := []
    errors := [⟨"SYNTAX_ERROR", some (-1)⟩]
    warnings := []
    metrics := [("tool_changes", .nat 0), ("color_changes", .nat 0),
      ("drawing_segments", .nat 0), ("canvas_coverage", .nat 0),
      ("canvas_coverage_accurate", .nat 0), ("exact_colors_used", .strList [])]
    criteriaMet := Option.none
    colorsRequired := Option.none
    minCoverage := Option.none
    score := 0
    errorClassification := Option.none }

/-- Region that `evaluate` extracts from the criteria (the nesting of lines
106–117 of the source): present criteria with a present prompt from which a
region keyword is detected; `none` in every other branch. -/
def regionOfCrit (crit : Option Criteria) : Option String :=
  match crit with
  | some c =>
    match c.prompt with
    | some p => extractSpatialConstraints p
    | Option.none => Option.none
  | Option.none => Option.none

/-- Spatial-accuracy metric pair of `evaluate` (lines 106–117): the
`spatial_accuracy` metric value and the detected region stored in
`spatial_constraints`.  Every branch of the source with no detected region
stores the same pair `(None, {})`, so the nesting is factored through
`regionOfCrit`. -/
def spatialMetric (L : Layout) (rs : SqrtFn) (acts : List Entry)
    (crit : Option Criteria) : Py (MVal × Option String) :=
  match regionOfCrit crit with
  | some reg => do
    let v ← evaluateSpatialAccuracy L rs acts reg
    pure ((match v with
      | some q => MVal.rat q
      | Option.none => MVal.none), some reg)
  | Option.none => pure (MVal.none, (Option.none : Option String))

/-- The optional `criteria_met` map of `evaluate` (line 127). -/
def criteriaMetOf (L : Layout) (cc : CircleFn) (acts : List Entry)
    (crit : Option Criteria) : Py (Option CriteriaMet) :=
  match crit with
  | some c => do
    let m ← checkCriteria L cc acts c
    pure (some m)
  | Option.none => pure (Option.none : Option CriteriaMet)

/-- Assembly of the result dictionary of `evaluate`'s list branch from the
computed pieces (lines 83–150 of the source): the nine-entry metrics map in
insertion order, the score from `_calculate_score`, and the classification
(empty when no criteria were supplied). -/
def mkEvalResults (acts : List Entry) (crit : Option Criteria)
    (breakdown : List (String × ℕ)) (errs1 errs2 warns : List Diag)
    (toolChanges colorChanges segments : ℕ) (coverage coverageAcc : ℚ)
    (exactColors : List String) (spatPart : MVal × Option String)
    (cm : Option CriteriaMet) : Results :=
  let eff : MVal :=
    match crit with
    | some c =>
      match calculateActionEfficiency acts.length c with
      | some q => .rat q
      | Option.none => .none
    | Option.none => .none
  let colorsRequired := crit.bind (fun c => c.requiredColors.map List.length)
  let minCov := crit.bind (fun c => c.minCoverage)
  let metrics : List (String × MVal) :=
    [("tool_changes", .nat toolChanges), ("color_changes", .nat colorChanges),
     ("drawing_segments", .nat segments), ("canvas_coverage", .rat coverage),
     ("canvas_coverage_accurate", .rat coverageAcc),
     ("exact_colors_used", .strList exactColors),
     ("spatial_accuracy", spatPart.1),
     ("spatial_constraints", .constraints spatPart.2),
     ("action_efficiency", eff)]
  let errors := errs1 ++ errs2
  { totalActions := acts.length
    actionBreakdown := breakdown
    errors := errors
    warnings := warns
    metrics := metrics
    criteriaMet := cm
    colorsRequired := colorsRequired
    minCoverage := minCov
    score := calcScore cm colorsRequired minCov metrics errors warns acts.length
    errorClassification :=
      match crit with
      | some c => some (classifyErrors c cm metrics errors)
      | Option.none => some emptyClassification }

/-- Embeds `evaluate`, the sole entry point (the unused `ground_truth`
parameter is omitted).  `crit = none` models an absent or falsy criteria
argument. -/
def evaluate (L : Layout) (cc : CircleFn) (rs : SqrtFn) (input : EvalInput)
    (crit : Option Criteria) : Py Results :=
  match input with
  | .nonList _ => .ok degenerateResult
  | .list acts => do
    let breakdown ← countActions acts
    let errs1 ← checkSyntaxErrors acts
    let errs2 ← checkCoordinateErrors L acts
    let warns ← checkEfficiencyWarnings acts
    let toolChanges ← countToolChanges L acts
    let colorChanges ← countColorChanges acts
    let segments ← countDrawingSegments acts
    let coverage ← estimateCanvasCoverage L acts
    let coverageAcc ← estimateCanvasCoverageAccurate L cc acts
    let exactColors ← detectExactColorsUsed L acts
    let spatPart ← spatialMetric L rs acts crit
    let cm ← criteriaMetOf L cc acts crit
    .ok (mkEvalResults acts crit breakdown errs1 errs2 warns toolChanges
      colorChanges segments coverage coverageAcc exactColors spatPart cm)

/-! ## Concrete instantiations -/

/-- Modelled from the spec: the UI layout descriptor (`UI_CONFIG.json`) is
not part of `src/`, so its contents are reconstructed from the
specification and the constants hardcoded in the source: a 1000×700 canvas
at offset (90, 70) — the source's own error messages name 1090 as the
canvas right edge and 770 as the bottom edge, and `__init__` defaults to
1000×700 — one toolbar row at y = 25 holding the five tools the spec names,
and eight color swatches spanning the hardcoded strip x ∈ [405, 741] with
the red swatch at (453, 25), the position the source's own example
clicks. -/
def mLayout : Layout :=
  { canvasWidth := 1000, canvasHeight := 700, offsetX := 90, offsetY := 70,
    tools := [("pen", 245, 25), ("eraser", 150, 25), ("rectangle", 295, 25),
      ("circle", 345, 25), ("line", 95, 25)],
    colors := [(405, 25, "#000000"), (453, 25, "#FF0000"), (501, 25, "#0000FF"),
      (549, 25, "#00FF00"), (597, 25, "#FFFF00"), (645, 25, "#FFA500"),
      (693, 25, "#800080"), (741, 25, "#FFFFFF")],
    tolerance := 40 }

/-- Trivial admissible instantiation of the circle rasterizer, used only to
instantiate universally quantified theorems at concrete inputs. -/
def cc0 : CircleFn := fun _ _ _ _ => ∅

/-- Trivial admissible instantiation of the float square root, used only to
instantiate universally quantified theorems at concrete inputs. -/
def rs0 : SqrtFn := fun _ => 0

/-- Shorthand: an action dictionary with only the `"action"` key. -/
def dAct (t : String) : Entry := .dict ⟨some t, Option.none, Option.none⟩

/-- Shorthand: an action dictionary with numeric coordinates. -/
def dXY (t : String) (x y : ℚ) : Entry :=
  .dict ⟨some t, some (.num x), some (.num y)⟩

/-- The entry is a dictionary whose discriminator is `"click"`. -/
def isClickEntry : Entry → Prop
  | .dict a => a.act = some "click"
  | .nonDict => False

instance (e : Entry) : Decidable (isClickEntry e) := by
  cases e <;> unfold isClickEntry <;> infer_instance

/-- Every `mouseDown`/`mouseUp` dictionary carries both coordinate keys (so
its anchor never falls back to the last-known position). -/
def mduEntry (e : Entry) : Prop :=
  ∀ b, e = Entry.dict b → (b.act = some "mouseDown" ∨ b.act = some "mouseUp") →
    b.x.isSome ∧ b.y.isSome

instance (e : Entry) : Decidable (mduEntry e) := by
  unfold mduEntry
  cases e with
  | dict b =>
    exact decidable_of_iff
      ((b.act = some "mouseDown" ∨ b.act = some "mouseUp") → b.x.isSome ∧ b.y.isSome)
      ⟨fun h c hc => by cases hc; exact h, fun h hb => h b rfl hb⟩
  | nonDict => exact .isTrue (fun b hb => by cases hb)

/-- A safe lookahead for the tool-selection pattern: absent, or a
dictionary whose discriminator is not `"click"`. -/
def lookSafe : Option Entry → Prop
  | Option.none => True
  | some (.dict b) => b.act ≠ some "click"
  | some .nonDict => False

instance (k : Option Entry) : Decidable (lookSafe k) := by
  unfold lookSafe
  match k with
  | Option.none => infer_instance
  | some (.dict _) => infer_instance
  | some .nonDict => infer_instance

/-- Prefix of a log with an open segment: `mouseDown(95,75)` (default pen),
tool re-selected to rectangle (`moveTo(295,25)` then `click`), then
`moveTo(245,25)` onto the pen button — whether pen is re-selected depends
on the NEXT action being a `click`. -/
def c6pre : List Entry :=
  [dXY "mouseDown" 95 75, dXY "moveTo" 295 25, dAct "click",
   dXY "moveTo" 245 25]

/-- Suffix: the `click` that (in the un-inserted log) re-selects the pen,
three in-canvas `moveTo` points, and the closing `mouseUp`. -/
def c6suf : List Entry :=
  [dAct "click", dXY "moveTo" 590 420, dXY "moveTo" 1085 765,
   dXY "moveTo" 96 76, dAct "mouseUp"]

/-- The result `evaluate` computes for the empty action list with no
criteria: no diagnostics, zero counts and coverage, score exactly 1. -/
def c4Result : Results :=
  { totalActions := 0
    actionBreakdown := [("moveTo", 0), ("click", 0), ("mouseDown", 0),
      ("mouseUp", 0), ("unknown", 0)]
    errors := []
    warnings := []
    metrics := [("tool_changes", .nat 0), ("color_changes", .nat 0),
      ("drawing_segments", .nat 0), ("canvas_coverage", .rat 0),
      ("canvas_coverage_accurate", .rat 0),
      ("exact_colors_used", .strList []),
      ("spatial_accuracy", MVal.none),
      ("spatial_constraints", .constraints Option.none),
      ("action_efficiency", MVal.none)]
    criteriaMet := Option.none
    colorsRequired := Option.none
    minCoverage := Option.none
    score := 1
    errorClassification := some emptyClassification }

/-- Simulation relation between two coverage states: same control state,
the second grid covering the first (last positions unrelated). -/
def covRel (s₁ s₂ : CovState) : Prop :=
  s₁.grid ⊆ s₂.grid ∧ s₁.isDrawing = s₂.isDrawing ∧
  s₁.currentTool = s₂.currentTool ∧ s₁.mouseDownPos = s₂.mouseDownPos

/-! ## Helper lemmas -/

theorem py_bind_ok {α β : Type} {e : Py α} {f : α → Py β} {r : β}
    (h : e >>= f = .ok r) : ∃ a, e = .ok a ∧ f a = .ok r := by
  cases e with
  | ok a => exact ⟨a, rfl, h⟩
  | error ex => exact Except.noConfusion h

theorem ratFloor_eq (q : ℚ) : q.floor = ⌊q⌋ := rfl

theorem roundHalfEvenInt_lb (q : ℚ) : ⌊q⌋ ≤ roundHalfEvenInt q := by
  unfold roundHalfEvenInt
  rw [ratFloor_eq]
  split_ifs <;> omega

theorem roundHalfEvenInt_ub (q : ℚ) : roundHalfEvenInt q ≤ ⌊q⌋ + 1 := by
  unfold roundHalfEvenInt
  rw [ratFloor_eq]
  split_ifs <;> omega

theorem roundHalfEvenInt_mono {a b : ℚ} (h : a ≤ b) :
    roundHalfEvenInt a ≤ roundHalfEvenInt b := by
  have hf : ⌊a⌋ ≤ ⌊b⌋ := Int.floor_le_floor h
  rcases lt_or_eq_of_le hf with hlt | heq
  · calc roundHalfEvenInt a ≤ ⌊a⌋ + 1 := roundHalfEvenInt_ub a
      _ ≤ ⌊b⌋ := hlt
      _ ≤ roundHalfEvenInt b := roundHalfEvenInt_lb b
  · unfold roundHalfEvenInt
    rw [ratFloor_eq, ratFloor_eq, ← heq]
    have hr : a - (⌊a⌋ : ℚ) ≤ b - (⌊a⌋ : ℚ) := by linarith
    split_ifs <;> first | omega | linarith

theorem pyRound_mono {a b : ℚ} (n : ℕ) (h : a ≤ b) :
    pyRound a n ≤ pyRound b n := by
  unfold pyRound
  have hm : roundHalfEvenInt (a * 10 ^ n) ≤ roundHalfEvenInt (b * 10 ^ n) :=
    roundHalfEvenInt_mono (by
      exact mul_le_mul_of_nonneg_right h (by positivity))
  have hp : (0 : ℚ) < 10 ^ n := by positivity
  exact (div_le_div_right hp).mpr (by exact_mod_cast hm)

theorem clamp3_spec (x : ℚ) :
    0 ≤ max 0 (min 1 (pyRound x 3)) ∧ max 0 (min 1 (pyRound x 3)) ≤ 1 ∧
      ∃ k : ℤ, max 0 (min 1 (pyRound x 3)) = (k : ℚ) / 1000 := by
  refine ⟨le_max_left _ _, max_le (by norm_num) (min_le_left _ _), ?_⟩
  have h1 : pyRound x 3 = ((roundHalfEvenInt (x * 10 ^ 3) : ℤ) : ℚ) / 1000 := by
    unfold pyRound; norm_num
  set m := roundHalfEvenInt (x * 10 ^ 3) with hm
  refine ⟨max 0 (min 1000 m), ?_⟩
  rw [h1]
  rcases le_total (m : ℚ) 1000 with hle | hgt
  · have hmin : min 1 ((m : ℚ) / 1000) = (m : ℚ) / 1000 :=
      min_eq_right (by rw [div_le_one (by norm_num)]; exact hle)
    have hmz : min 1000 m = m := min_eq_right (by exact_mod_cast hle)
    rw [hmin, hmz]
    rcases le_total (0 : ℤ) m with hz | hz
    · have hq : (0 : ℚ) ≤ (m : ℚ) / 1000 :=
        div_nonneg (by exact_mod_cast hz) (by norm_num)
      rw [max_eq_right hq, max_eq_right hz]
    · have hq : (m : ℚ) / 1000 ≤ 0 := by
        rw [div_nonpos_iff]
        exact Or.inr ⟨by exact_mod_cast hz, by norm_num⟩
      rw [max_eq_left hq, max_eq_left hz]
      norm_num
  · have hmin : min 1 ((m : ℚ) / 1000) = 1 :=
      min_eq_left (by rw [le_div_iff (by norm_num)]; linarith)
    have hmz : min 1000 m = 1000 := min_eq_left (by exact_mod_cast hgt)
    rw [hmin, hmz]
    norm_num

theorem calcScore_spec (cm : Option CriteriaMet) (cr : Option ℕ)
    (mc : Option ℚ) (ms : List (String × MVal)) (es ws : List Diag) (n : ℕ) :
    0 ≤ calcScore cm cr mc ms es ws n ∧ calcScore cm cr mc ms es ws n ≤ 1 ∧
      ∃ k : ℤ, calcScore cm cr mc ms es ws n = (k : ℚ) / 1000 := by
  unfold calcScore
  exact clamp3_spec _

/-! ## Claims -/

/-- C1: for every action-list or non-list input and every (possibly absent)
criteria argument, whenever `evaluate` returns a result its `score` field
lies in [0,1] and is a multiple of 1/1000 (rounded to 3 decimals): the
scorer clamps the accumulated value to [0,1] after all penalties and the
bonus, and the degenerate non-list branch returns 0.0. -/
theorem c1_score_clamped (L : Layout) (cc : CircleFn) (rs : SqrtFn)
    (input : EvalInput) (crit : Option Criteria) (r : Results)
    (h : evaluate L cc rs input crit = .ok r) :
    0 ≤ r.score ∧ r.score ≤ 1 ∧ ∃ k : ℤ, r.score = (k : ℚ) / 1000 := by
  cases input with
  | nonList v =>
    have hr : degenerateResult = r := Except.ok.inj h
    rw [← hr]
    refine ⟨le_refl 0, by norm_num [degenerateResult], 0, by norm_num [degenerateResult]⟩
  | list acts =>
    simp only [evaluate] at h
    obtain ⟨breakdown, h1, h⟩ := py_bind_ok h
    obtain ⟨errs1, h2, h⟩ := py_bind_ok h
    obtain ⟨errs2, h3, h⟩ := py_bind_ok h
    obtain ⟨warns, h4, h⟩ := py_bind_ok h
    obtain ⟨toolChanges, h5, h⟩ := py_bind_ok h
    obtain ⟨colorChanges, h6, h⟩ := py_bind_ok h
    obtain ⟨segments, h7, h⟩ := py_bind_ok h
    obtain ⟨coverage, h8, h⟩ := py_bind_ok h
    obtain ⟨coverageAcc, h9, h⟩ := py_bind_ok h
    obtain ⟨exactColors, h10, h⟩ := py_bind_ok h
    obtain ⟨spatPart, h11, h⟩ := py_bind_ok h
    obtain ⟨cm, h12, h⟩ := py_bind_ok h
    have hr := Except.ok.inj h
    rw [← hr]
    exact calcScore_spec _ _ _ _ _ _ _

/-- Witness for C1 at a concrete input (the degenerate non-list result). -/
theorem c1_score_clamped_witness :
    0 ≤ degenerateResult.score ∧ degenerateResult.score ≤ 1 ∧
      ∃ k : ℤ, degenerateResult.score = (k : ℚ) / 1000 :=
  c1_score_clamped mLayout cc0 rs0 (.nonList .other) Option.none
    degenerateResult rfl

/-- C2 counterexample: for the concrete non-list input `.other` the metrics
map of the returned result is not empty (it holds six zeroed entries), so
the claim's "empty metrics" is false as stated. -/
theorem c2_metrics_nonempty_counterexample :
    (evaluate mLayout cc0 rs0 (.nonList PyVal.other) Option.none).map
      Results.metrics ≠ .ok [] := by decide

/-- C2 (amended): for every non-list input, whatever its content, and every
criteria argument, `evaluate` short-circuits with the degenerate result:
score exactly 0.0, exactly one error which is a top-level SYNTAX_ERROR (at
index −1), no warnings, a metrics map holding exactly the six zeroed
default entries (not an empty map), and no criteria or classification
processing (`criteria_met` and `error_classification` keys absent). -/
theorem c2_nonlist_degenerate (L : Layout) (cc : CircleFn) (rs : SqrtFn)
    (v : PyVal) (crit : Option Criteria) :
    evaluate L cc rs (.nonList v) crit = .ok degenerateResult ∧
    degenerateResult.score = 0 ∧
    degenerateResult.errors = [⟨"SYNTAX_ERROR", some (-1)⟩] ∧
    degenerateResult.warnings = [] ∧
    degenerateResult.metrics =
      [("tool_changes", .nat 0), ("color_changes", .nat 0),
       ("drawing_segments", .nat 0), ("canvas_coverage", .nat 0),
       ("canvas_coverage_accurate", .nat 0), ("exact_colors_used", .strList [])] ∧
    degenerateResult.criteriaMet = Option.none ∧
    degenerateResult.errorClassification = Option.none :=
  ⟨rfl, rfl, rfl, rfl, rfl, rfl, rfl⟩

/-- C3: the claim says `evaluate` returns a result for every list whatever
the shape of its elements; in fact a list element that is not a dictionary
makes `_count_actions` call `.get` on it and raise `AttributeError`
(`evaluate([42])` fails), so the code contradicts the spec's "must never
fail on malformed action content".  This theorem evaluates the code at the
failing input. -/
theorem c3_nondict_entry_raises :
    evaluate mLayout cc0 rs0 (.list [Entry.nonDict]) Option.none =
      .error .attrError := by decide

/-- C5: evaluating twice with identical actions and criteria yields an
identical result.  The embedding is a pure function, which is itself
faithful to the source: no method of `DrawingEvaluator` writes to `self`
or to any module global after construction, every call allocates fresh
scratch state (`results`, the numpy grid, position lists), and the shared
layout tables are only read. -/
theorem c5_evaluate_deterministic (L : Layout) (cc : CircleFn) (rs : SqrtFn)
    (input : EvalInput) (crit : Option Criteria) :
    evaluate L cc rs input crit = evaluate L cc rs input crit := rfl

/-- C4: evaluating the empty action list with no criteria yields zero
errors and warnings, all per-type action counts 0, both coverage metrics 0,
and score exactly 1.0 — no penalty applies, and the action-count bonus does
not apply since the count 0 is below 10. -/
theorem c4_empty_actions (L : Layout) (cc : CircleFn) (rs : SqrtFn) :
    evaluate L cc rs (.list []) Option.none = .ok c4Result ∧
    c4Result.errors = [] ∧ c4Result.warnings = [] ∧
    c4Result.actionBreakdown = [("moveTo", 0), ("click", 0), ("mouseDown", 0),
      ("mouseUp", 0), ("unknown", 0)] ∧
    getMap c4Result.metrics "canvas_coverage" = some (.rat 0) ∧
    getMap c4Result.metrics "canvas_coverage_accurate" = some (.rat 0) ∧
    c4Result.score = 1 :=
  ⟨rfl, rfl, rfl, rfl, by decide, by decide, rfl⟩

/-- C7: coverage penalty of the scorer.  When the accurate-coverage check
is available (`min_coverage_accurate_met` present) and failed, the scorer
subtracts the proportional penalty ((required − actual)/required) × 0.12,
subtracting 0 when the required coverage is 0; when the accurate check is
not available and the coarse `min_coverage_met` check failed, it subtracts
a flat 0.12 instead. -/
theorem c7_coverage_penalty (cm : CriteriaMet) (minCov : Option ℚ)
    (metrics : List (String × MVal)) :
    (cm.minCoverageAccurateMet = some false →
      ((0 < minCov.getD 0 →
        metricQ metrics "canvas_coverage_accurate" ≤ minCov.getD 0 →
        coveragePenalty (some cm) minCov metrics =
          (minCov.getD 0 - metricQ metrics "canvas_coverage_accurate") /
            minCov.getD 0 * 0.12) ∧
       (minCov.getD 0 = 0 → coveragePenalty (some cm) minCov metrics = 0))) ∧
    (cm.minCoverageAccurateMet = Option.none →
      cm.minCoverageMet = some false →
      coveragePenalty (some cm) minCov metrics = 0.12) := by
  constructor
  · intro hav
    have hx : coveragePenalty (some cm) minCov metrics =
        (if 0 < minCov.getD 0 then
          max 0 (minCov.getD 0 - metricQ metrics "canvas_coverage_accurate") /
            minCov.getD 0 * 0.12
        else 0) := by
      unfold coveragePenalty
      rw [Option.getD_some, hav]
      rfl
    constructor
    · intro hreq hle
      rw [hx, if_pos hreq, max_eq_right (by linarith)]
    · intro hreq0
      rw [hx, if_neg (by rw [hreq0]; norm_num)]
  · intro hav hfail
    have hx : coveragePenalty (some cm) minCov metrics =
        (if cm.minCoverageMet.getD true = true then 0 else 0.12) := by
      unfold coveragePenalty
      rw [Option.getD_some, hav]
    rw [hx, hfail]
    rfl

/-- Witness for C7 at concrete scorer inputs: a failed accurate check with
required 1/2 and actual 1/4 gives the proportional penalty 0.06, and a
failed coarse check without accurate data gives the flat 0.12. -/
theorem c7_coverage_penalty_witness :
    coveragePenalty (some ⟨[], Option.none, Option.none, Option.none,
        Option.none, Option.none, Option.none, Option.none, Option.none,
        Option.none, Option.none, Option.none, some false⟩) (some (1/2))
      [("canvas_coverage_accurate", .rat (1/4))] = 3/50 ∧
    coveragePenalty (some ⟨[], Option.none, Option.none, Option.none,
        Option.none, Option.none, Option.none, Option.none, Option.none,
        Option.none, some false, Option.none, Option.none⟩)
      Option.none [] = 0.12 := by
  constructor
  · have h := ((c7_coverage_penalty ⟨[], Option.none, Option.none,
      Option.none, Option.none, Option.none, Option.none, Option.none,
      Option.none, Option.none, Option.none, Option.none, some false⟩
      (some (1/2)) [("canvas_coverage_accurate", .rat (1/4))]).1 rfl).1
      (by decide) (by decide)
    rw [h]
    decide
  · exact (c7_coverage_penalty ⟨[], Option.none, Option.none, Option.none,
      Option.none, Option.none, Option.none, Option.none, Option.none,
      Option.none, some false, Option.none, Option.none⟩
      Option.none []).2 rfl rfl

theorem checkCoordAux_cons {L : Layout} {e : Entry} {rest : List Entry}
    {i : ℕ} {errs : List Diag}
    (h : checkCoordinateErrorsAux L (e :: rest) i = .ok errs) :
    ∃ a tl, e = .dict a ∧ checkCoordinateErrorsAux L rest (i + 1) = .ok tl ∧
      errs = coordErrsOf L a i ++ tl := by
  simp only [checkCoordinateErrorsAux] at h
  obtain ⟨a, ha, h⟩ := py_bind_ok h
  obtain ⟨tl, htl, h⟩ := py_bind_ok h
  cases e with
  | dict b =>
    have hb : b = a := Except.ok.inj ha
    subst hb
    exact ⟨b, tl, rfl, htl, (Except.ok.inj h).symm⟩
  | nonDict => exact Except.noConfusion ha

theorem checkCoordAux_mem {L : Layout} :
    ∀ {acts : List Entry} {i0 : ℕ} {errs : List Diag} {d : Diag},
      checkCoordinateErrorsAux L acts i0 = .ok errs → d ∈ errs →
      ∃ j a, acts.get? j = some (.dict a) ∧ d ∈ coordErrsOf L a (i0 + j)
  | [], i0, errs, d => by
    intro h hd
    rw [← Except.ok.inj h] at hd
    exact absurd hd (List.not_mem_nil d)
  | e :: rest, i0, errs, d => by
    intro h hd
    obtain ⟨a, tl, he, htl, herrs⟩ := checkCoordAux_cons h
    subst herrs
    rcases List.mem_append.mp hd with h1 | h1
    · subst he
      exact ⟨0, a, rfl, by simpa using h1⟩
    · obtain ⟨j, a', hj, hmem⟩ := checkCoordAux_mem htl h1
      refine ⟨j + 1, a', by simpa using hj, ?_⟩
      have hadd : i0 + (j + 1) = i0 + 1 + j := by omega
      rw [hadd]
      exact hmem

theorem checkCoordAux_sub {L : Layout} :
    ∀ {acts : List Entry} {i0 j : ℕ} {errs : List Diag} {a : ActionDict},
      checkCoordinateErrorsAux L acts i0 = .ok errs →
      acts.get? j = some (.dict a) →
      coordErrsOf L a (i0 + j) ⊆ errs
  | [], _, j, _, _ => by
    intro _ hj
    simp at hj
  | e :: rest, i0, j, errs, a => by
    intro h hj
    obtain ⟨b, tl, he, htl, herrs⟩ := checkCoordAux_cons h
    subst herrs
    cases j with
    | zero =>
      subst he
      have hba : b = a := by simpa using hj
      subst hba
      intro x hx
      exact List.mem_append_left _ (by simpa using hx)
    | succ j =>
      have hj' : rest.get? j = some (.dict a) := by simpa using hj
      have hsub := checkCoordAux_sub htl hj'
      intro x hx
      refine List.mem_append_right _ (hsub ?_)
      have hadd : i0 + 1 + j = i0 + (j + 1) := by omega
      rw [hadd]
      exact hx

theorem coordErrsOf_index {L : Layout} {a : ActionDict} {i : ℕ} {d : Diag}
    (h : d ∈ coordErrsOf L a i) : d.index = some (i : ℤ) := by
  unfold coordErrsOf at h
  split at h
  · split at h
    · rcases List.mem_append.mp h with h1 | h1
      · split at h1
        · simp only [List.mem_singleton] at h1
          rw [h1]
        · exact absurd h1 (List.not_mem_nil d)
      · split at h1
        · split at h1
          · simp only [List.mem_singleton] at h1
            rw [h1]
          · exact absurd h1 (List.not_mem_nil d)
        · exact absurd h1 (List.not_mem_nil d)
    · simp only [List.mem_singleton] at h
      rw [h]
  · exact absurd h (List.not_mem_nil d)

theorem coordErrsOf_inbounds {L : Layout} {a : ActionDict} {qx qy : ℚ}
    {i : ℕ}
    (hx : a.x = some (.num qx)) (hy : a.y = some (.num qy))
    (h1 : 0 ≤ qx) (h2 : qx ≤ 1500) (h3 : 0 ≤ qy) (h4 : qy ≤ 900)
    (h5 : a.act = some "mouseDown" →
      0 ≤ qx - L.offsetX ∧ qx - L.offsetX ≤ L.canvasWidth ∧
      0 ≤ qy - L.offsetY ∧ qy - L.offsetY ≤ L.canvasHeight) :
    coordErrsOf L a i = [] := by
  unfold coordErrsOf
  rw [hx, hy]
  simp only [PyVal.toQ?]
  rw [if_neg (by push_neg; exact ⟨h1, h2, h3, h4⟩)]
  by_cases hmd : a.act = some "mouseDown"
  · obtain ⟨g1, g2, g3, g4⟩ := h5 hmd
    rw [if_pos hmd, if_neg (by push_neg; exact ⟨g1, g2, g3, g4⟩)]
    rfl
  · rw [if_neg hmd]
    rfl

/-- C9 (amended): screen-bounds checking is inclusive, but for `mouseDown`
actions a second, canvas-bounds COORDINATE_ERROR can fire even at in-screen
points.  Precisely: an action with numeric coordinates inside
[0,1500]×[0,900] produces no diagnostic at its index, provided that, when it
is a `mouseDown`, its point also lies inside the canvas rectangle; and any
coordinate strictly outside the screen rectangle produces a
COORDINATE_ERROR for that action. -/
theorem c9_bounds_inclusive (L : Layout) (acts : List Entry) (i : ℕ)
    (a : ActionDict) (qx qy : ℚ) (errs : List Diag)
    (hget : acts.get? i = some (.dict a))
    (hx : a.x = some (.num qx)) (hy : a.y = some (.num qy))
    (hrun : checkCoordinateErrors L acts = .ok errs) :
    ((0 ≤ qx ∧ qx ≤ 1500 ∧ 0 ≤ qy ∧ qy ≤ 900 ∧
      (a.act = some "mouseDown" →
        0 ≤ qx - L.offsetX ∧ qx - L.offsetX ≤ L.canvasWidth ∧
        0 ≤ qy - L.offsetY ∧ qy - L.offsetY ≤ L.canvasHeight)) →
      ∀ d ∈ errs, d.index ≠ some (i : ℤ)) ∧
    ((qx < 0 ∨ 1500 < qx ∨ qy < 0 ∨ 900 < qy) →
      (⟨"COORDINATE_ERROR", some (i : ℤ)⟩ : Diag) ∈ errs) := by
  unfold checkCoordinateErrors at hrun
  constructor
  · rintro ⟨h1, h2, h3, h4, h5⟩ d hd hidx
    obtain ⟨j, a', hj, hmem⟩ := checkCoordAux_mem hrun hd
    have hji := coordErrsOf_index hmem
    rw [hidx] at hji
    have hj0 : (i : ℤ) = ((0 + j : ℕ) : ℤ) := Option.some.inj hji
    have hji' : j = i := by
      have hcast : (i : ℤ) = (j : ℤ) := by simpa using hj0
      exact_mod_cast hcast.symm
    subst hji'
    rw [hget] at hj
    have ha' : a = a' := by
      have := Option.some.inj hj
      exact (Entry.dict.inj this.symm).symm
    subst ha'
    rw [coordErrsOf_inbounds hx hy h1 h2 h3 h4 h5] at hmem
    exact absurd hmem (List.not_mem_nil d)
  · intro hout
    have hsub := checkCoordAux_sub hrun hget
    apply hsub
    unfold coordErrsOf
    rw [hx, hy]
    simp only [PyVal.toQ?]
    rw [if_pos (by rcases hout with h | h | h | h
                   · exact Or.inl h
                   · exact Or.inr (Or.inl h)
                   · exact Or.inr (Or.inr (Or.inl h))
                   · exact Or.inr (Or.inr (Or.inr h)))]
    apply List.mem_append_left
    simp

/-- Witness for C9 at concrete inputs: a `moveTo` at the inclusive corner
(1500, 900) yields no diagnostics, and a `moveTo` at x = 1501 yields the
COORDINATE_ERROR at its index. -/
theorem c9_bounds_inclusive_witness :
    (∀ d ∈ ([] : List Diag), d.index ≠ some (0 : ℤ)) ∧
    (⟨"COORDINATE_ERROR", some (0 : ℤ)⟩ : Diag) ∈
      [(⟨"COORDINATE_ERROR", some (0 : ℤ)⟩ : Diag)] :=
  ⟨(c9_bounds_inclusive mLayout [dXY "moveTo" 1500 900] 0
      ⟨some "moveTo", some (.num 1500), some (.num 900)⟩ 1500 900 []
      rfl rfl rfl (by decide)).1 (by decide),
   (c9_bounds_inclusive mLayout [dXY "moveTo" 1501 5] 0
      ⟨some "moveTo", some (.num 1501), some (.num 5)⟩ 1501 5
      [⟨"COORDINATE_ERROR", some 0⟩] rfl rfl rfl (by decide)).2
      (by norm_num)⟩

/-- C9 counterexample: a `mouseDown` at (1500, 900) — coordinates the claim
declares produce no COORDINATE_ERROR — produces one (the canvas-bounds
check on mouseDown actions), so the claim is false as stated. -/
theorem c9_mousedown_boundary_counterexample :
    checkCoordinateErrors mLayout [dXY "mouseDown" 1500 900] =
      .ok [⟨"COORDINATE_ERROR", some 0⟩] := by decide

theorem evaluate_list_ok {L : Layout} {cc : CircleFn} {rs : SqrtFn}
    {acts : List Entry} {crit : Option Criteria} {r : Results}
    (h : evaluate L cc rs (.list acts) crit = .ok r) :
    ∃ breakdown errs1 errs2 warns toolChanges colorChanges segments coverage
      coverageAcc exactColors spatPart cm,
      spatialMetric L rs acts crit = .ok spatPart ∧
      criteriaMetOf L cc acts crit = .ok cm ∧
      r = mkEvalResults acts crit breakdown errs1 errs2 warns toolChanges
        colorChanges segments coverage coverageAcc exactColors spatPart cm := by
  simp only [evaluate] at h
  obtain ⟨breakdown, h1, h⟩ := py_bind_ok h
  obtain ⟨errs1, h2, h⟩ := py_bind_ok h
  obtain ⟨errs2, h3, h⟩ := py_bind_ok h
  obtain ⟨warns, h4, h⟩ := py_bind_ok h
  obtain ⟨toolChanges, h5, h⟩ := py_bind_ok h
  obtain ⟨colorChanges, h6, h⟩ := py_bind_ok h
  obtain ⟨segments, h7, h⟩ := py_bind_ok h
  obtain ⟨coverage, h8, h⟩ := py_bind_ok h
  obtain ⟨coverageAcc, h9, h⟩ := py_bind_ok h
  obtain ⟨exactColors, h10, h⟩ := py_bind_ok h
  obtain ⟨spatPart, h11, h⟩ := py_bind_ok h
  obtain ⟨cm, h12, h⟩ := py_bind_ok h
  exact ⟨breakdown, errs1, errs2, warns, toolChanges, colorChanges, segments,
    coverage, coverageAcc, exactColors, spatPart, cm, h11, h12,
    (Except.ok.inj h).symm⟩

theorem getMap_mk_spatial (acts : List Entry) (crit : Option Criteria)
    (breakdown : List (String × ℕ)) (errs1 errs2 warns : List Diag)
    (tc cg sg : ℕ) (cov covA : ℚ) (ex : List String)
    (sp : MVal × Option String) (cm : Option CriteriaMet) :
    getMap (mkEvalResults acts crit breakdown errs1 errs2 warns tc cg sg cov
      covA ex sp cm).metrics "spatial_accuracy" = some sp.1 := rfl

/-- C8 (amended): the `spatial_accuracy` metric is null exactly when no
region keyword is detected from the criteria prompt (including an absent
prompt or absent criteria).  When a region is detected, the metric is `0.0`
— not null — when the drawing centroid is undefined (the source's "No
drawing, no accuracy" early return), and otherwise equals
`1 − distance/diagonal` clamped below at 0, where distance runs from the
centroid to the detected region's center and both lengths go through the
abstracted float square root `rs`. -/
theorem c8_spatial_accuracy (L : Layout) (cc : CircleFn) (rs : SqrtFn)
    (acts : List Entry) (crit : Option Criteria) (r : Results)
    (h : evaluate L cc rs (.list acts) crit = .ok r) :
    (regionOfCrit crit = Option.none →
      getMap r.metrics "spatial_accuracy" = some MVal.none) ∧
    (∀ reg, regionOfCrit crit = some reg →
      (calculateDrawingCentroid L acts = .ok Option.none →
        getMap r.metrics "spatial_accuracy" = some (.rat 0)) ∧
      (∀ cx cy tx ty, calculateDrawingCentroid L acts = .ok (some (cx, cy)) →
        regionCenters L reg = some (tx, ty) →
        getMap r.metrics "spatial_accuracy" =
          some (.rat (max 0 (1 - rs ((cx - tx) ^ 2 + (cy - ty) ^ 2) /
            rs (L.canvasWidth ^ 2 + L.canvasHeight ^ 2)))))) := by
  obtain ⟨b, e1, e2, w, tc, cg, sg, cv, ca, ex, sp, cm, hsp, hcm, hr⟩ :=
    evaluate_list_ok h
  subst hr
  simp only [getMap_mk_spatial]
  constructor
  · intro hreg
    unfold spatialMetric at hsp
    rw [hreg] at hsp
    have hx : (MVal.none, (Option.none : Option String)) = sp :=
      Except.ok.inj hsp
    rw [← hx]
  · intro reg hreg
    unfold spatialMetric at hsp
    rw [hreg] at hsp
    obtain ⟨v, hv, hpure⟩ := py_bind_ok hsp
    constructor
    · intro hc
      unfold evaluateSpatialAccuracy at hv
      obtain ⟨copt, hcopt, harm⟩ := py_bind_ok hv
      have hco : copt = Option.none := Except.ok.inj (hcopt.symm.trans hc)
      subst hco
      have hv0 : some (0 : ℚ) = v := Except.ok.inj harm
      rw [← hv0] at hpure
      have hsp1 : (MVal.rat 0, some reg) = sp := Except.ok.inj hpure
      rw [← hsp1]
    · intro cx cy tx ty hc hrc
      unfold evaluateSpatialAccuracy at hv
      obtain ⟨copt, hcopt, harm⟩ := py_bind_ok hv
      have hco : copt = some (cx, cy) := Except.ok.inj (hcopt.symm.trans hc)
      subst hco
      have harm' : (match regionCenters L reg with
          | Option.none => (.ok Option.none : Py (Option ℚ))
          | some (tx, ty) =>
            .ok (some (max 0 (1 - rs ((cx - tx) ^ 2 + (cy - ty) ^ 2) /
              rs (L.canvasWidth ^ 2 + L.canvasHeight ^ 2))))) = .ok v := harm
      rw [hrc] at harm'
      have hvv : some (max 0 (1 - rs ((cx - tx) ^ 2 + (cy - ty) ^ 2) /
          rs (L.canvasWidth ^ 2 + L.canvasHeight ^ 2))) = v :=
        Except.ok.inj harm'
      rw [← hvv] at hpure
      have hsp1 : (MVal.rat (max 0 (1 - rs ((cx - tx) ^ 2 + (cy - ty) ^ 2) /
          rs (L.canvasWidth ^ 2 + L.canvasHeight ^ 2))), some reg) = sp :=
        Except.ok.inj hpure
      rw [← hsp1]

/-- Witness for C8 at a concrete input: one stroke anchored at the canvas
center with a "center" prompt yields spatial accuracy 1. -/
theorem c8_spatial_accuracy_witness :
    (evaluate mLayout cc0 rs0
        (.list [dXY "moveTo" 590 420, dAct "mouseDown", dAct "mouseUp"])
        (some ⟨Option.none, Option.none, Option.none, Option.none,
          some "draw a sun in the center of the canvas"⟩)).map
      (fun r => getMap r.metrics "spatial_accuracy") = .ok (some (.rat 1)) := by
  obtain ⟨r, hr⟩ : ∃ r, evaluate mLayout cc0 rs0
      (.list [dXY "moveTo" 590 420, dAct "mouseDown", dAct "mouseUp"])
      (some ⟨Option.none, Option.none, Option.none, Option.none,
        some "draw a sun in the center of the canvas"⟩) = .ok r := ⟨_, rfl⟩
  have h := ((c8_spatial_accuracy mLayout cc0 rs0 _ _ r hr).2 "center"
    (by decide)).2 500 350 500 350 (by decide) (by decide)
  rw [hr]
  simp only [Except.map]
  rw [h]
  norm_num [rs0]

/-- C8 counterexample: with a "center" prompt and no drawing at all, the
`spatial_accuracy` metric is `0.0`, not null, so "null whenever no drawing
exists ... or no region keyword is detected" is false as stated. -/
theorem c8_nodrawing_counterexample :
    (evaluate mLayout cc0 rs0 (.list [])
        (some ⟨Option.none, Option.none, Option.none, Option.none,
          some "draw a sun in the center of the canvas"⟩)).map
      (fun r => getMap r.metrics "spatial_accuracy") = .ok (some (.rat 0)) ∧
    MVal.rat 0 ≠ MVal.none := ⟨by decide, by decide⟩

theorem py_ok_bind {α β : Type} (a : α) (f : α → Py β) :
    ((Except.ok a : Py α) >>= f) = f a := rfl

theorem lookNext_append (xs ys : List Entry) (k : Option Entry) :
    lookNext (xs ++ ys) k = lookNext xs (lookNext ys k) := by
  cases xs <;> rfl

theorem covRunL_append {L : Layout} {cc : CircleFn} :
    ∀ (xs ys : List Entry) (s : CovState) (k : Option Entry),
      covRunL L cc s (xs ++ ys) k =
        (covRunL L cc s xs (lookNext ys k)) >>= fun t => covRunL L cc t ys k
  | [], ys, s, k => rfl
  | e :: xs, ys, s, k => by
    show (covStep L cc s e (lookNext (xs ++ ys) k) >>= fun s' =>
        covRunL L cc s' (xs ++ ys) k) =
      ((covStep L cc s e (lookNext xs (lookNext ys k)) >>= fun s' =>
        covRunL L cc s' xs (lookNext ys k)) >>= fun t => covRunL L cc t ys k)
    rw [lookNext_append, bind_assoc]
    apply bind_congr
    intro s'
    exact covRunL_append xs ys s' k

theorem covMouse_grid_mono {L : Layout} {cc : CircleFn} {s : CovState}
    {a : ActionDict} {ct : String} {lp : PyVal × PyVal}
    {p : Bool × Option (PyVal × PyVal) × Finset (ℕ × ℕ)}
    (h : covMouse L cc s a ct lp = .ok p) : s.grid ⊆ p.2.2 := by
  simp only [covMouse] at h
  split at h
  · have h3 : s.grid = p.2.2 := congrArg
      (fun q : Bool × Option (PyVal × PyVal) × Finset (ℕ × ℕ) => q.2.2)
      (Except.ok.inj h)
    rw [← h3]
  · split at h
    · split at h
      · obtain ⟨cells, -, h⟩ := py_bind_ok h
        have h3 : s.grid ∪ cells = p.2.2 := congrArg
          (fun q : Bool × Option (PyVal × PyVal) × Finset (ℕ × ℕ) => q.2.2)
          (Except.ok.inj h)
        rw [← h3]
        exact Finset.subset_union_left
      · have h3 : s.grid = p.2.2 := congrArg
          (fun q : Bool × Option (PyVal × PyVal) × Finset (ℕ × ℕ) => q.2.2)
          (Except.ok.inj h)
        rw [← h3]
    · have h3 : s.grid = p.2.2 := congrArg
        (fun q : Bool × Option (PyVal × PyVal) × Finset (ℕ × ℕ) => q.2.2)
        (Except.ok.inj h)
      rw [← h3]

theorem covMark_grid_mono {L : Layout} {a : ActionDict} {d : Bool}
    {ct : String} {g1 g2 : Finset (ℕ × ℕ)}
    (h : covMark L a d ct g1 = .ok g2) : g1 ⊆ g2 := by
  simp only [covMark] at h
  split at h
  · obtain ⟨qx, -, h⟩ := py_bind_ok h
    obtain ⟨qy, -, h⟩ := py_bind_ok h
    have h3 := Except.ok.inj h
    split at h3
    · rw [← h3]
      exact Finset.subset_insert _ _
    · rw [← h3]
  · have h3 := Except.ok.inj h
    rw [← h3]

theorem covStep_grid_mono {L : Layout} {cc : CircleFn} {s : CovState}
    {e : Entry} {k : Option Entry} {t : CovState}
    (h : covStep L cc s e k = .ok t) : s.grid ⊆ t.grid := by
  simp only [covStep] at h
  obtain ⟨a, -, h⟩ := py_bind_ok h
  obtain ⟨ct, -, h⟩ := py_bind_ok h
  obtain ⟨p, hp, h⟩ := py_bind_ok h
  obtain ⟨g2, hg2, h⟩ := py_bind_ok h
  have htg : g2 = t.grid := congrArg CovState.grid (Except.ok.inj h)
  rw [← htg]
  exact (covMouse_grid_mono hp).trans (covMark_grid_mono hg2)

theorem covRunL_grid_mono {L : Layout} {cc : CircleFn} :
    ∀ {l : List Entry} {k : Option Entry} {s t : CovState},
      covRunL L cc s l k = .ok t → s.grid ⊆ t.grid
  | [], _, s, t => fun h => by
    rw [← Except.ok.inj h]
  | e :: rest, k, s, t => fun h => by
    simp only [covRunL] at h
    obtain ⟨s', hs', h⟩ := py_bind_ok h
    exact (covStep_grid_mono hs').trans (covRunL_grid_mono h)

theorem toolScan_none {mx my : ℚ} :
    ∀ {ts : List (String × ℚ × ℚ)},
      (∀ t ∈ ts, ¬(|mx - t.2.1| < 40 ∧ |my - t.2.2| < 40)) →
      toolScan ts (.num mx) (.num my) = .ok Option.none
  | [] => fun _ => rfl
  | (n, tx, ty) :: rest => fun h => by
    have hrest : ∀ t ∈ rest, ¬(|mx - t.2.1| < 40 ∧ |my - t.2.2| < 40) :=
      fun t ht => h t (List.mem_cons_of_mem _ ht)
    have hhd := h (n, tx, ty) (List.mem_cons_self _ _)
    simp only [toolScan, PyVal.toQ, py_ok_bind]
    by_cases h1 : |mx - tx| < 40
    · rw [if_pos h1]
      rw [if_neg (fun h2 => hhd ⟨h1, h2⟩)]
      exact toolScan_none hrest
    · rw [if_neg h1]
      exact toolScan_none hrest

theorem covStep_dict (L : Layout) (cc : CircleFn) (s : CovState)
    (a : ActionDict) (k : Option Entry) :
    covStep L cc s (Entry.dict a) k =
      covTool L s a k >>= fun ct =>
      covMouse L cc s a ct (covLast a s) >>= fun p =>
      covMark L a p.1 ct p.2.2 >>= fun g2 =>
      .ok ⟨g2, p.1, ct, p.2.1, covLast a s⟩ := rfl

theorem covTool_other (L : Layout) (s : CovState) (a : ActionDict)
    (k : Option Entry) (h1 : ¬(a.act = some "click" ∧ a.x.isSome ∧ a.y.isSome))
    (h2 : a.act ≠ some "moveTo") :
    covTool L s a k = .ok s.currentTool := by
  unfold covTool
  rw [if_neg h1, if_neg h2]
  rfl

theorem covTool_moveTo_none (L : Layout) (s : CovState) (x y : ℚ)
    (k : Option Entry)
    (hscan : toolScan L.tools (.num x) (.num y) = .ok Option.none) :
    covTool L s ⟨some "moveTo", some (.num x), some (.num y)⟩ k =
      .ok s.currentTool := by
  have h : covTool L s ⟨some "moveTo", some (.num x), some (.num y)⟩ k =
      (toolScan L.tools (.num x) (.num y) >>= fun hit =>
        match hit with
        | some n => covLookClick k n s.currentTool
        | Option.none => pure s.currentTool) := rfl
  rw [h, hscan]
  rfl

theorem covMouse_other (L : Layout) (cc : CircleFn) (s : CovState)
    (a : ActionDict) (ct : String) (lp : PyVal × PyVal)
    (h1 : a.act ≠ some "mouseDown") (h2 : a.act ≠ some "mouseUp") :
    covMouse L cc s a ct lp = .ok (s.isDrawing, s.mouseDownPos, s.grid) := by
  unfold covMouse
  rw [if_neg h1, if_neg h2]
  rfl

theorem covMark_pen (L : Layout) (act : Option String) (x y : ℚ)
    (g : Finset (ℕ × ℕ)) :
    covMark L ⟨act, some (.num x), some (.num y)⟩ true "pen" g =
      .ok (if 0 ≤ x - L.offsetX ∧ x - L.offsetX ≤ L.canvasWidth ∧
          0 ≤ y - L.offsetY ∧ y - L.offsetY ≤ L.canvasHeight then
        insert (gridIdx (x - L.offsetX) L.canvasWidth,
          gridIdx (y - L.offsetY) L.canvasHeight) g
      else g) := rfl

theorem covStep_mouseDown_pen (L : Layout) (cc : CircleFn) (s : CovState)
    (x y : ℚ) (k : Option Entry) (hpen : s.currentTool = "pen") :
    covStep L cc s (dXY "mouseDown" x y) k =
      .ok ⟨(if 0 ≤ x - L.offsetX ∧ x - L.offsetX ≤ L.canvasWidth ∧
            0 ≤ y - L.offsetY ∧ y - L.offsetY ≤ L.canvasHeight then
          insert (gridIdx (x - L.offsetX) L.canvasWidth,
            gridIdx (y - L.offsetY) L.canvasHeight) s.grid
        else s.grid),
        true, "pen", some (.num x, .num y), (.num x, .num y)⟩ := by
  obtain ⟨g, d, ct, mdp, lp⟩ := s
  replace hpen : ct = "pen" := hpen
  subst hpen
  rfl

theorem covStep_moveTo_pen (L : Layout) (cc : CircleFn) (s : CovState)
    (x y : ℚ) (k : Option Entry)
    (hpen : s.currentTool = "pen") (hdraw : s.isDrawing = true)
    (hscan : toolScan L.tools (.num x) (.num y) = .ok Option.none) :
    covStep L cc s (dXY "moveTo" x y) k =
      .ok ⟨(if 0 ≤ x - L.offsetX ∧ x - L.offsetX ≤ L.canvasWidth ∧
            0 ≤ y - L.offsetY ∧ y - L.offsetY ≤ L.canvasHeight then
          insert (gridIdx (x - L.offsetX) L.canvasWidth,
            gridIdx (y - L.offsetY) L.canvasHeight) s.grid
        else s.grid),
        true, "pen", s.mouseDownPos, (.num x, .num y)⟩ := by
  rw [show dXY "moveTo" x y =
    Entry.dict ⟨some "moveTo", some (.num x), some (.num y)⟩ from rfl]
  rw [covStep_dict]
  rw [covTool_moveTo_none L s x y k hscan, hpen]
  simp only [py_ok_bind]
  rw [covMouse_other L cc s _ "pen" _
    (fun h => absurd (Option.some.inj h) (by decide))
    (fun h => absurd (Option.some.inj h) (by decide)), hdraw]
  simp only [py_ok_bind]
  rw [covMark_pen]
  simp only [py_ok_bind]
  rfl

/-- C10: in the accurate-coverage computation the current tool defaults to
`"pen"`: when the log opens a segment with a `mouseDown` before any
tool-selection click and then visits an in-canvas `moveTo` point away from
every tool button window, the marked grid cell survives to the end of the
run (cell marking only ever grows the grid), so `canvas_coverage_accurate`
is strictly positive even though no tool button was ever clicked. -/
theorem c10_default_pen (cc : CircleFn) (b1 b2 m1 m2 : ℚ) (rest : List Entry)
    (q : ℚ)
    (hnotool : ∀ t ∈ mLayout.tools, ¬(|m1 - t.2.1| < 40 ∧ |m2 - t.2.2| < 40))
    (hin : 0 ≤ m1 - mLayout.offsetX ∧ m1 - mLayout.offsetX ≤ mLayout.canvasWidth ∧
      0 ≤ m2 - mLayout.offsetY ∧ m2 - mLayout.offsetY ≤ mLayout.canvasHeight)
    (hok : estimateCanvasCoverageAccurate mLayout cc
      (dXY "mouseDown" b1 b2 :: dXY "moveTo" m1 m2 :: rest) = .ok q) :
    0 < q := by
  have hscan : toolScan mLayout.tools (.num m1) (.num m2) = .ok Option.none :=
    toolScan_none hnotool
  simp only [estimateCanvasCoverageAccurate, covRun] at hok
  obtain ⟨t, ht, hq⟩ := py_bind_ok hok
  have hq' : q = pyRound ((t.grid.card : ℚ) / 400) 4 := (Except.ok.inj hq).symm
  simp only [covRunL, lookNext] at ht
  obtain ⟨s1, hs1, ht⟩ := py_bind_ok ht
  rw [covStep_mouseDown_pen mLayout cc covInit b1 b2 _ rfl] at hs1
  replace hs1 := Except.ok.inj hs1
  subst hs1
  obtain ⟨s2, hs2, ht⟩ := py_bind_ok ht
  rw [covStep_moveTo_pen mLayout cc _ m1 m2 _ rfl rfl hscan] at hs2
  replace hs2 := Except.ok.inj hs2
  subst hs2
  have hmem : (gridIdx (m1 - mLayout.offsetX) mLayout.canvasWidth,
      gridIdx (m2 - mLayout.offsetY) mLayout.canvasHeight) ∈ t.grid :=
    covRunL_grid_mono ht
      (by rw [if_pos hin]; exact Finset.mem_insert_self _ _)
  have hpos : 0 < t.grid.card := Finset.card_pos.mpr ⟨_, hmem⟩
  have h1 : (1 : ℚ) / 400 ≤ (t.grid.card : ℚ) / 400 := by
    have hc : (1 : ℚ) ≤ (t.grid.card : ℚ) := by exact_mod_cast hpos
    linarith
  have h2 : pyRound ((1 : ℚ) / 400) 4 ≤ pyRound ((t.grid.card : ℚ) / 400) 4 :=
    pyRound_mono 4 h1
  have h3 : pyRound ((1 : ℚ) / 400) 4 = 1 / 400 := by decide
  rw [hq']
  calc (0 : ℚ) < 1 / 400 := by norm_num
    _ = pyRound ((1 : ℚ) / 400) 4 := h3.symm
    _ ≤ pyRound ((t.grid.card : ℚ) / 400) 4 := h2

theorem covLookClick_safe {k : Option Entry} (n cur : String)
    (h : lookSafe k) : covLookClick k n cur = .ok cur := by
  match k, h with
  | Option.none, _ => rfl
  | some (.dict b), h =>
    show (Entry.asDict (.dict b) >>= fun db =>
      pure (if db.act = some "click" then n else cur)) = .ok cur
    rw [show Entry.asDict (.dict b) = .ok b from rfl, py_ok_bind, if_neg h]
    rfl
  | some .nonDict, h => exact h.elim

theorem covTool_congr {L : Layout} {s₁ s₂ : CovState} (a : ActionDict)
    (k : Option Entry) (h : s₁.currentTool = s₂.currentTool) :
    covTool L s₁ a k = covTool L s₂ a k := by
  simp only [covTool, h]

theorem covStep_look {L : Layout} {cc : CircleFn} {k₁ k₂ : Option Entry}
    (h₁ : lookSafe k₁) (h₂ : lookSafe k₂) (s : CovState) (e : Entry) :
    covStep L cc s e k₁ = covStep L cc s e k₂ := by
  cases e with
  | nonDict => rfl
  | dict a =>
    rw [covStep_dict, covStep_dict]
    have ht : covTool L s a k₁ = covTool L s a k₂ := by
      unfold covTool
      by_cases hc1 : a.act = some "click" ∧ a.x.isSome = true ∧
          a.y.isSome = true
      · rw [if_pos hc1, if_pos hc1]
      · rw [if_neg hc1, if_neg hc1]
        by_cases hc2 : a.act = some "moveTo"
        · rw [if_pos hc2, if_pos hc2]
          apply bind_congr
          intro hit
          cases hit with
          | some n =>
            show covLookClick k₁ n s.currentTool =
              covLookClick k₂ n s.currentTool
            rw [covLookClick_safe n s.currentTool h₁,
              covLookClick_safe n s.currentTool h₂]
          | none => rfl
        · rw [if_neg hc2, if_neg hc2]
    rw [ht]

theorem covRunL_look {L : Layout} {cc : CircleFn} {k₁ k₂ : Option Entry}
    (h₁ : lookSafe k₁) (h₂ : lookSafe k₂) :
    ∀ (l : List Entry) (s : CovState),
      covRunL L cc s l k₁ = covRunL L cc s l k₂
  | [], _ => rfl
  | [e], s => by
    show (covStep L cc s e k₁ >>= fun s' => covRunL L cc s' [] k₁) =
      (covStep L cc s e k₂ >>= fun s' => covRunL L cc s' [] k₂)
    rw [covStep_look h₁ h₂ s e]
    exact bind_congr fun s' => rfl
  | e :: b :: bs, s => by
    show (covStep L cc s e (some b) >>= fun s' =>
        covRunL L cc s' (b :: bs) k₁) =
      (covStep L cc s e (some b) >>= fun s' =>
        covRunL L cc s' (b :: bs) k₂)
    exact bind_congr fun s' => covRunL_look h₁ h₂ (b :: bs) s'

theorem covMouse_sim {L : Layout} {cc : CircleFn} {s₁ s₂ : CovState}
    {a : ActionDict} {ct : String} {lp₁ lp₂ : PyVal × PyVal}
    {p₁ p₂ : Bool × Option (PyVal × PyVal) × Finset (ℕ × ℕ)}
    (hmdu : (a.act = some "mouseDown" ∨ a.act = some "mouseUp") →
      a.x.isSome ∧ a.y.isSome)
    (hg : s₁.grid ⊆ s₂.grid) (hd : s₁.isDrawing = s₂.isDrawing)
    (hmdp : s₁.mouseDownPos = s₂.mouseDownPos)
    (h₁ : covMouse L cc s₁ a ct lp₁ = .ok p₁)
    (h₂ : covMouse L cc s₂ a ct lp₂ = .ok p₂) :
    p₁.1 = p₂.1 ∧ p₁.2.1 = p₂.2.1 ∧ p₁.2.2 ⊆ p₂.2.2 := by
  unfold covMouse at h₁ h₂
  by_cases hDown : a.act = some "mouseDown"
  · rw [if_pos hDown] at h₁ h₂
    obtain ⟨hx, hy⟩ := hmdu (Or.inl hDown)
    obtain ⟨vx, hvx⟩ := Option.isSome_iff_exists.mp hx
    obtain ⟨vy, hvy⟩ := Option.isSome_iff_exists.mp hy
    simp only [hvx, hvy] at h₁ h₂
    replace h₁ := (Except.ok.inj h₁).symm
    replace h₂ := (Except.ok.inj h₂).symm
    subst h₁; subst h₂
    exact ⟨rfl, rfl, hg⟩
  · by_cases hUp : a.act = some "mouseUp"
    · rw [if_neg hDown, if_pos hUp] at h₁ h₂
      rw [hd, hmdp] at h₁
      by_cases hcond : s₂.isDrawing = true ∧ s₂.mouseDownPos.isSome = true ∧
          (ct = "rectangle" ∨ ct = "circle" ∨ ct = "line")
      · rw [if_pos hcond] at h₁ h₂
        obtain ⟨hx, hy⟩ := hmdu (Or.inr hUp)
        obtain ⟨vx, hvx⟩ := Option.isSome_iff_exists.mp hx
        obtain ⟨vy, hvy⟩ := Option.isSome_iff_exists.mp hy
        obtain ⟨mv, hmv⟩ := Option.isSome_iff_exists.mp hcond.2.1
        simp only [hvx, hvy, hmv, Option.getD] at h₁ h₂
        obtain ⟨c₁, hc₁, h₁⟩ := py_bind_ok h₁
        obtain ⟨c₂, hc₂, h₂⟩ := py_bind_ok h₂
        obtain rfl : c₁ = c₂ := Except.ok.inj (hc₁.symm.trans hc₂)
        replace h₁ := (Except.ok.inj h₁).symm
        replace h₂ := (Except.ok.inj h₂).symm
        subst h₁; subst h₂
        exact ⟨rfl, rfl, Finset.union_subset_union hg (Finset.Subset.refl _)⟩
      · rw [if_neg hcond] at h₁ h₂
        replace h₁ := (Except.ok.inj h₁).symm
        replace h₂ := (Except.ok.inj h₂).symm
        subst h₁; subst h₂
        exact ⟨rfl, rfl, hg⟩
    · rw [if_neg hDown, if_neg hUp] at h₁ h₂
      replace h₁ := (Except.ok.inj h₁).symm
      replace h₂ := (Except.ok.inj h₂).symm
      subst h₁; subst h₂
      exact ⟨hd, hmdp, hg⟩

theorem covMark_sim {L : Layout} {a : ActionDict} {d : Bool} {ct : String}
    {g₁ g₂ r₁ r₂ : Finset (ℕ × ℕ)} (hg : g₁ ⊆ g₂)
    (h₁ : covMark L a d ct g₁ = .ok r₁) (h₂ : covMark L a d ct g₂ = .ok r₂) :
    r₁ ⊆ r₂ := by
  unfold covMark at h₁ h₂
  by_cases hcond : d = true ∧ (ct = "pen" ∨ ct = "eraser") ∧
      a.x.isSome = true ∧ a.y.isSome = true
  · rw [if_pos hcond] at h₁ h₂
    obtain ⟨qx, hqx, h₁⟩ := py_bind_ok h₁
    obtain ⟨qx', hqx', h₂⟩ := py_bind_ok h₂
    obtain rfl : qx = qx' := Except.ok.inj (hqx.symm.trans hqx')
    obtain ⟨qy, hqy, h₁⟩ := py_bind_ok h₁
    obtain ⟨qy', hqy', h₂⟩ := py_bind_ok h₂
    obtain rfl : qy = qy' := Except.ok.inj (hqy.symm.trans hqy')
    replace h₁ := (Except.ok.inj h₁).symm
    replace h₂ := (Except.ok.inj h₂).symm
    subst h₁; subst h₂
    by_cases hc : 0 ≤ qx - L.offsetX ∧ qx - L.offsetX ≤ L.canvasWidth ∧
        0 ≤ qy - L.offsetY ∧ qy - L.offsetY ≤ L.canvasHeight
    · rw [if_pos hc, if_pos hc]
      exact Finset.insert_subset_insert _ hg
    · rw [if_neg hc, if_neg hc]
      exact hg
  · rw [if_neg hcond] at h₁ h₂
    replace h₁ := (Except.ok.inj h₁).symm
    replace h₂ := (Except.ok.inj h₂).symm
    subst h₁; subst h₂
    exact hg

theorem covStep_sim {L : Layout} {cc : CircleFn} {s₁ s₂ : CovState}
    {e : Entry} {k : Option Entry} {t₁ t₂ : CovState}
    (hrel : covRel s₁ s₂) (hmdu : mduEntry e)
    (h₁ : covStep L cc s₁ e k = .ok t₁)
    (h₂ : covStep L cc s₂ e k = .ok t₂) : covRel t₁ t₂ := by
  obtain ⟨hg, hd, htool, hmdp⟩ := hrel
  cases e with
  | nonDict =>
    have h' : (Except.error PyExn.attrError : Py CovState) = .ok t₁ := h₁
    exact Except.noConfusion h'
  | dict a =>
    rw [covStep_dict] at h₁ h₂
    obtain ⟨ct₁, hct₁, h₁⟩ := py_bind_ok h₁
    obtain ⟨ct₂, hct₂, h₂⟩ := py_bind_ok h₂
    obtain rfl : ct₁ = ct₂ := by
      rw [covTool_congr a k htool] at hct₁
      exact Except.ok.inj (hct₁.symm.trans hct₂)
    obtain ⟨p₁, hp₁, h₁⟩ := py_bind_ok h₁
    obtain ⟨p₂, hp₂, h₂⟩ := py_bind_ok h₂
    obtain ⟨hq1, hq2, hq3⟩ :=
      covMouse_sim (hmdu a rfl) hg hd hmdp hp₁ hp₂
    obtain ⟨r₁, hr₁, h₁⟩ := py_bind_ok h₁
    obtain ⟨r₂, hr₂, h₂⟩ := py_bind_ok h₂
    rw [← hq1] at hr₂
    have hrsub : r₁ ⊆ r₂ := covMark_sim hq3 hr₁ hr₂
    replace h₁ := (Except.ok.inj h₁).symm
    replace h₂ := (Except.ok.inj h₂).symm
    subst h₁; subst h₂
    exact ⟨hrsub, hq1, rfl, hq2⟩

theorem covRunL_sim {L : Layout} {cc : CircleFn} :
    ∀ {l : List Entry} {k : Option Entry} {s₁ s₂ t₁ t₂ : CovState},
      covRel s₁ s₂ → (∀ e ∈ l, mduEntry e) →
      covRunL L cc s₁ l k = .ok t₁ → covRunL L cc s₂ l k = .ok t₂ →
      covRel t₁ t₂
  | [], _, _, _, _, _ => fun hrel _ h₁ h₂ => by
    rw [← Except.ok.inj h₁, ← Except.ok.inj h₂]
    exact hrel
  | e :: rest, k, s₁, s₂, t₁, t₂ => fun hrel hmdu h₁ h₂ => by
    simp only [covRunL] at h₁ h₂
    obtain ⟨u₁, hu₁, h₁⟩ := py_bind_ok h₁
    obtain ⟨u₂, hu₂, h₂⟩ := py_bind_ok h₂
    exact covRunL_sim
      (covStep_sim hrel (hmdu e (List.mem_cons_self e rest)) hu₁ hu₂)
      (fun e' he' => hmdu e' (List.mem_cons_of_mem _ he')) h₁ h₂

/-- C6 (amended): inserting an in-canvas `moveTo` point into an open pen
segment never decreases `canvas_coverage_accurate`, provided the inserted
point hits no tool-button window, the action right after the insertion
point is not a `click` (and is a dictionary if present), and every
`mouseDown`/`mouseUp` in the suffix carries both coordinates.  Without
these provisos the claim is false (see the counterexample): the insertion
can change the lookahead-based pen re-selection or a shape anchor and lose
cells. -/
theorem c6_insert_monotone (cc : CircleFn) (pre suf : List Entry) (x y : ℚ)
    (s : CovState) (qa qb : ℚ)
    (hpre : covRunL mLayout cc covInit pre (some (dXY "moveTo" x y)) = .ok s)
    (hpen : s.currentTool = "pen") (hdraw : s.isDrawing = true)
    (hnotool : ∀ t ∈ mLayout.tools, ¬(|x - t.2.1| < 40 ∧ |y - t.2.2| < 40))
    (hsafe : lookSafe (lookNext suf Option.none))
    (hmdu : ∀ e ∈ suf, mduEntry e)
    (ha : estimateCanvasCoverageAccurate mLayout cc (pre ++ suf) = .ok qa)
    (hb : estimateCanvasCoverageAccurate mLayout cc
      (pre ++ dXY "moveTo" x y :: suf) = .ok qb) :
    qa ≤ qb := by
  have hscan : toolScan mLayout.tools (.num x) (.num y) = .ok Option.none :=
    toolScan_none hnotool
  have hsafeM : lookSafe (some (dXY "moveTo" x y)) :=
    fun h => absurd (Option.some.inj h) (by decide)
  simp only [estimateCanvasCoverageAccurate, covRun] at ha hb
  obtain ⟨ta, hta, hqa⟩ := py_bind_ok ha
  obtain ⟨tb, htb, hqb⟩ := py_bind_ok hb
  rw [covRunL_append] at hta htb
  simp only [lookNext] at htb
  obtain ⟨u, hu, hta⟩ := py_bind_ok hta
  rw [covRunL_look hsafe hsafeM pre covInit] at hu
  have hus : u = s := Except.ok.inj (hu.symm.trans hpre)
  rw [hus] at hta
  obtain ⟨v, hv, htb⟩ := py_bind_ok htb
  have hvs : v = s := Except.ok.inj (hv.symm.trans hpre)
  rw [hvs] at htb
  simp only [covRunL] at htb
  obtain ⟨s', hs', htb⟩ := py_bind_ok htb
  rw [covStep_moveTo_pen mLayout cc s x y _ hpen hdraw hscan] at hs'
  have hrel : covRel s s' := by
    rw [← Except.ok.inj hs']
    refine ⟨?_, hdraw, hpen, rfl⟩
    split
    · exact Finset.subset_insert _ _
    · exact Finset.Subset.refl _
  have hrelab : covRel ta tb := covRunL_sim hrel hmdu hta htb
  have hcard : ta.grid.card ≤ tb.grid.card := Finset.card_le_card hrelab.1
  have hqa' : qa = pyRound ((ta.grid.card : ℚ) / 400) 4 :=
    (Except.ok.inj hqa).symm
  have hqb' : qb = pyRound ((tb.grid.card : ℚ) / 400) 4 :=
    (Except.ok.inj hqb).symm
  rw [hqa', hqb']
  refine pyRound_mono 4 ?_
  have hc : (ta.grid.card : ℚ) ≤ (tb.grid.card : ℚ) := by exact_mod_cast hcard
  linarith

/-- Witness for the amended C6 theorem: inserting `moveTo(640,470)` into
the open pen segment `mouseDown(590,420) … mouseUp(590,420)` raises the
accurate coverage from `1/400` to `1/200`. -/
theorem c6_insert_monotone_witness :
    covRunL mLayout cc0 covInit [dXY "mouseDown" 590 420]
        (some (dXY "moveTo" 640 470)) =
      .ok ⟨{(10, 10)}, true, "pen", some (.num 590, .num 420),
        (.num 590, .num 420)⟩ ∧
    (∀ t ∈ mLayout.tools,
      ¬(|(640 : ℚ) - t.2.1| < 40 ∧ |(470 : ℚ) - t.2.2| < 40)) ∧
    estimateCanvasCoverageAccurate mLayout cc0
      ([dXY "mouseDown" 590 420] ++ [dXY "mouseUp" 590 420]) =
        .ok (1 / 400) ∧
    estimateCanvasCoverageAccurate mLayout cc0
      ([dXY "mouseDown" 590 420] ++
        dXY "moveTo" 640 470 :: [dXY "mouseUp" 590 420]) = .ok (1 / 200) ∧
    (1 : ℚ) / 400 ≤ 1 / 200 :=
  ⟨by decide, by decide, by decide, by decide,
    c6_insert_monotone cc0 [dXY "mouseDown" 590 420] [dXY "mouseUp" 590 420]
      640 470
      ⟨{(10, 10)}, true, "pen", some (.num 590, .num 420),
        (.num 590, .num 420)⟩
      (1 / 400) (1 / 200) (by decide) rfl rfl (by decide) (by decide)
      (by decide) (by decide) (by decide)⟩

/-- C6 counterexample: in the log `c6pre ++ c6suf` the segment is open with
the pen at the insertion point (first conjunct), the inserted point
`(600,430)` is in-canvas (second conjunct), yet inserting
`moveTo(600,430)` there drops the accurate coverage from `3/400` to
`1/400`: the insertion separates `moveTo(245,25)` from its `click`, so the
pen is never re-selected, the later in-canvas points mark nothing, and the
`mouseUp` instead fills a tiny rectangle.  Accurate coverage is not
monotone in inserted pen points as claimed. -/
theorem c6_insertion_counterexample :
    (covRunL mLayout cc0 covInit c6pre (lookNext c6suf Option.none)).map
        (fun s => (s.currentTool, s.isDrawing)) = .ok ("pen", true) ∧
    (0 ≤ (600 : ℚ) - mLayout.offsetX ∧
      (600 : ℚ) - mLayout.offsetX ≤ mLayout.canvasWidth ∧
      0 ≤ (430 : ℚ) - mLayout.offsetY ∧
      (430 : ℚ) - mLayout.offsetY ≤ mLayout.canvasHeight) ∧
    estimateCanvasCoverageAccurate mLayout cc0 (c6pre ++ c6suf) =
      .ok (3 / 400) ∧
    estimateCanvasCoverageAccurate mLayout cc0
      (c6pre ++ dXY "moveTo" 600 430 :: c6suf) = .ok (1 / 400) ∧
    ¬((3 : ℚ) / 400 ≤ 1 / 400) :=
  ⟨by decide, by decide, by decide, by decide, by decide⟩

/-- Witness for C10 at a concrete log: `mouseDown(590,420)`,
`moveTo(640,470)`, `mouseUp` — no click anywhere — yields accurate
coverage `2/400 = 1/200 > 0` (both visited cells marked by the default
pen). -/
theorem c10_default_pen_witness :
    (∀ t ∈ mLayout.tools,
      ¬(|(640 : ℚ) - t.2.1| < 40 ∧ |(470 : ℚ) - t.2.2| < 40)) ∧
    estimateCanvasCoverageAccurate mLayout cc0
      [dXY "mouseDown" 590 420, dXY "moveTo" 640 470, dAct "mouseUp"] =
        .ok (1 / 200) ∧
    (0 : ℚ) < 1 / 200 :=
  ⟨by decide, by decide,
    c10_default_pen cc0 590 420 640 470 [dAct "mouseUp"] (1 / 200)
      (by decide) (by decide) (by decide)⟩

end DrawingBench
